import Mathlib

/-
Verification development for the VOWL-R graph-serialization engine
(crates/database: serializers.rs, serializers/frontend.rs, serializers/util.rs,
store.rs).  The Rust code is shallowly embedded: RDF terms become an inductive
type, the hash maps and hash sets of the working buffer become association
lists / lists with the same custom equality the Rust code uses, and the
mutually recursive unknown-buffer replay is made terminating with an explicit
fuel parameter (the Rust recursion has no structural bound; every theorem
about a concrete run simply uses enough fuel for that run).
-/

namespace VOWLR

/-! ## RDF terms (model of oxrdf::Term) -/

/-- Model of oxrdf::Term: a named node (IRI), a blank node, or a literal.
Literal datatypes/language tags are irrelevant to the serializer logic, which
only inspects the literal value, so a literal carries its value string only. -/
inductive Term where
  | namedNode (iri : String)
  | blankNode (id : String)
  | literal (value : String)
deriving DecidableEq, Repr

/-- Model of the Display rendering of oxrdf::Term (N-Triples syntax):
named nodes print in angle brackets, blank nodes with a leading underscore
colon, literals in double quotes. -/
def Term.toDisplayString : Term → String
  | .namedNode iri => "<" ++ iri ++ ">"
  | .blankNode id => "_:" ++ id
  | .literal value => "\"" ++ value ++ "\""

def Term.isNamedNode : Term → Bool
  | .namedNode _ => true
  | _ => false

def Term.isBlankNode : Term → Bool
  | .blankNode _ => true
  | _ => false

/-- Variant rank used by the derived Ord on oxrdf::Term
(NamedNode before BlankNode before Literal). -/
def Term.rank : Term → Nat
  | .namedNode _ => 0
  | .blankNode _ => 1
  | .literal _ => 2

/-- The string payload of a term (used to model the derived lexicographic
ordering inside one variant). -/
def Term.payload : Term → String
  | .namedNode s => s
  | .blankNode s => s
  | .literal s => s

/-- Model of the derived total order on oxrdf::Term: variant rank first,
then the payload string. -/
def Term.le (a b : Term) : Bool :=
  if a.rank = b.rank then decide (a.payload ≤ b.payload)
  else decide (a.rank < b.rank)

/-! ## Element taxonomy (model of the external grapher::prelude types) -/

inductive OwlNode where
  | Class | AnonymousClass | Complement | DeprecatedClass | ExternalClass
  | EquivalentClass | DisjointUnion | IntersectionOf | Thing | UnionOf
deriving DecidableEq, Repr

inductive OwlEdge where
  | DatatypeProperty | DisjointWith | DeprecatedProperty | ExternalProperty
  | InverseOf | ObjectProperty | ValuesFrom
deriving DecidableEq, Repr

inductive OwlType where
  | Node (n : OwlNode)
  | Edge (e : OwlEdge)
deriving DecidableEq, Repr

inductive RdfsNode where
  | Class | Literal | Resource | Datatype
deriving DecidableEq, Repr

inductive RdfsEdge where
  | SubclassOf
deriving DecidableEq, Repr

inductive RdfsType where
  | Node (n : RdfsNode)
  | Edge (e : RdfsEdge)
deriving DecidableEq, Repr

inductive RdfEdge where
  | RdfProperty
deriving DecidableEq, Repr

inductive RdfType where
  | Edge (e : RdfEdge)
deriving DecidableEq, Repr

inductive GenericType where
  | Node | Edge
deriving DecidableEq, Repr

/-- The closed visual-classification tag (grapher::prelude::ElementType).
Equality is identity-only, which the derived DecidableEq provides. -/
inductive ElementType where
  | NoDraw
  | Owl (t : OwlType)
  | Rdfs (t : RdfsType)
  | Rdf (t : RdfType)
  | Generic (t : GenericType)
deriving DecidableEq, Repr

/-- Rendering of an element type, modelling the external Display impl by the
variant name (no claim inspects these strings; they only serve as fallback
labels). -/
def ElementType.toDisplay : ElementType → String
  | .NoDraw => "NoDraw"
  | .Owl (.Node n) =>
    match n with
    | .Class => "Class"
    | .AnonymousClass => "AnonymousClass"
    | .Complement => "Complement"
    | .DeprecatedClass => "DeprecatedClass"
    | .ExternalClass => "ExternalClass"
    | .EquivalentClass => "EquivalentClass"
    | .DisjointUnion => "DisjointUnion"
    | .IntersectionOf => "IntersectionOf"
    | .Thing => "Thing"
    | .UnionOf => "UnionOf"
  | .Owl (.Edge e) =>
    match e with
    | .DatatypeProperty => "DatatypeProperty"
    | .DisjointWith => "DisjointWith"
    | .DeprecatedProperty => "DeprecatedProperty"
    | .ExternalProperty => "ExternalProperty"
    | .InverseOf => "InverseOf"
    | .ObjectProperty => "ObjectProperty"
    | .ValuesFrom => "ValuesFrom"
  | .Rdfs (.Node n) =>
    match n with
    | .Class => "RdfsClass"
    | .Literal => "RdfsLiteral"
    | .Resource => "RdfsResource"
    | .Datatype => "RdfsDatatype"
  | .Rdfs (.Edge .SubclassOf) => "SubclassOf"
  | .Rdf (.Edge .RdfProperty) => "RdfProperty"
  | .Generic .Node => "GenericNode"
  | .Generic .Edge => "GenericEdge"

/-- SYMMETRIC_EDGE_TYPES from crates/database/src/lib.rs. -/
def SYMMETRIC_EDGE_TYPES : List ElementType :=
  [ElementType.Owl (.Edge .DisjointWith)]

/-! ## Vocabulary IRIs (crates/database vocab module; standard RDF(S)/OWL) -/

def rdfPropertyIri : String := "http://www.w3.org/1999/02/22-rdf-syntax-ns#Property"
def rdfXmlLiteralIri : String := "http://www.w3.org/1999/02/22-rdf-syntax-ns#XMLLiteral"

def rdfsNs : String := "http://www.w3.org/2000/01/rdf-schema#"
def rdfsClassIri : String := rdfsNs ++ "Class"
def rdfsDatatypeIri : String := rdfsNs ++ "Datatype"
def rdfsDomainIri : String := rdfsNs ++ "domain"
def rdfsLiteralIri : String := rdfsNs ++ "Literal"
def rdfsRangeIri : String := rdfsNs ++ "range"
def rdfsResourceIri : String := rdfsNs ++ "Resource"
def rdfsSubClassOfIri : String := rdfsNs ++ "subClassOf"
def rdfsSubPropertyOfIri : String := rdfsNs ++ "subPropertyOf"

def owlNs : String := "http://www.w3.org/2002/07/owl#"
def owlAllDisjointClassesIri : String := owlNs ++ "AllDisjointClasses"
def owlAllDisjointPropertiesIri : String := owlNs ++ "AllDisjointProperties"
def owlClassIri : String := owlNs ++ "Class"
def owlComplementOfIri : String := owlNs ++ "complementOf"
def owlDatatypeComplementOfIri : String := owlNs ++ "datatypeComplementOf"
def owlDatatypePropertyIri : String := owlNs ++ "DatatypeProperty"
def owlDeprecatedIri : String := owlNs ++ "deprecated"
def owlDeprecatedClassIri : String := owlNs ++ "DeprecatedClass"
def owlDeprecatedPropertyIri : String := owlNs ++ "DeprecatedProperty"
def owlDifferentFromIri : String := owlNs ++ "differentFrom"
def owlDisjointUnionOfIri : String := owlNs ++ "disjointUnionOf"
def owlDisjointWithIri : String := owlNs ++ "disjointWith"
def owlEquivalentClassIri : String := owlNs ++ "equivalentClass"
def owlEquivalentPropertyIri : String := owlNs ++ "equivalentProperty"
def owlIntersectionOfIri : String := owlNs ++ "intersectionOf"
def owlInverseFunctionalPropertyIri : String := owlNs ++ "InverseFunctionalProperty"
def owlObjectPropertyIri : String := owlNs ++ "ObjectProperty"
def owlOntologyIri : String := owlNs ++ "Ontology"
def owlThingIri : String := owlNs ++ "Thing"
def owlUnionOfIri : String := owlNs ++ "unionOf"

/-! ## serializers/util.rs -/

/-- trim_tag_circumfix: removes every leading '<' and every trailing '>'
(Rust trim_start_matches / trim_end_matches semantics). -/
def trimTagCircumfix (input : String) : String :=
  let noPre := input.toList.dropWhile (fun c => c == '<')
  let noSuf := (noPre.reverse.dropWhile (fun c => c == '>')).reverse
  String.mk noSuf

/-- get_reserved_iris: the fixed reserved-IRI set (already circumfix-trimmed,
matching the trim applied in the source). -/
def getReservedIris : List String :=
  [ rdfXmlLiteralIri,
    rdfsDomainIri, rdfsLiteralIri, rdfsRangeIri, rdfsResourceIri,
    rdfsSubClassOfIri, rdfsSubPropertyOfIri,
    owlAllDisjointClassesIri, owlAllDisjointPropertiesIri,
    owlComplementOfIri, owlDatatypeComplementOfIri, owlDeprecatedIri,
    owlDeprecatedClassIri, owlDeprecatedPropertyIri, owlDifferentFromIri,
    owlDisjointUnionOfIri, owlDisjointWithIri, owlEquivalentClassIri,
    owlEquivalentPropertyIri, owlIntersectionOfIri, owlThingIri,
    owlUnionOfIri ]

/-! ## Triple and Edge (serializers.rs) -/

/-- The denormalized result row: subject id, discriminator element_type,
optional target.  Equality and hashing are structural (derived in Rust). -/
structure Triple where
  id : Term
  element_type : Term
  target : Option Term
deriving DecidableEq, Repr

/-- Display impl of Triple, used when formatting the failure report. -/
def Triple.toDisplayString (t : Triple) : String :=
  "Triple\x7b " ++ t.id.toDisplayString ++ " - "
    ++ t.element_type.toDisplayString ++ " - "
    ++ ((t.target.map Term.toDisplayString).getD "") ++ "\x7d"

structure Edge where
  subject : Term
  element_type : ElementType
  object : Term
  property : Option Term
deriving DecidableEq, Repr

/-- impl PartialEq for Edge: element type and property must match; the
symmetric DisjointWith kind ignores subject/object order; every other kind
compares subject and object positionally. -/
def edgeEq (a b : Edge) : Bool :=
  if a.element_type ≠ b.element_type ∨ a.property ≠ b.property then false
  else
    if [ElementType.Owl (.Edge .DisjointWith)].contains a.element_type then
      (a.subject = b.subject ∧ a.object = b.object)
        ∨ (a.subject = b.object ∧ a.object = b.subject)
    else
      a.subject = b.subject ∧ a.object = b.object

/-- One atom fed to the hasher in impl Hash for Edge. -/
inductive HashAtom where
  | term (t : Term)
  | etype (e : ElementType)
  | oterm (o : Option Term)
deriving DecidableEq, Repr

/-- impl Hash for Edge, modelled as the exact sequence of atoms fed to the
hasher: equal sequences mean equal hashes.  Symmetric kinds hash the pair
sorted by the term order; ObjectProperty additionally folds in the property;
all other kinds hash (subject, element_type, object). -/
def edgeHashKey (e : Edge) : List HashAtom :=
  if SYMMETRIC_EDGE_TYPES.contains e.element_type then
    let fs := if e.subject.le e.object then (e.subject, e.object)
              else (e.object, e.subject)
    [.term fs.1, .term fs.2, .etype e.element_type]
  else if e.element_type = ElementType.Owl (.Edge .ObjectProperty) then
    [.term e.subject, .etype e.element_type, .term e.object, .oterm e.property]
  else
    [.term e.subject, .etype e.element_type, .term e.object]

/-! ## Hash map / hash set models

The Rust buffers are HashMap/HashSet.  They are modelled as association
lists / plain lists parameterized by the key-equality the Rust type uses
(structural for Term and String keys, edgeEq for Edge keys).  Iteration
order is list order. -/

def lookupBy {K V : Type} (eqk : K → K → Bool) : List (K × V) → K → Option V
  | [], _ => none
  | (k, v) :: rest, key => if eqk k key then some v else lookupBy eqk rest key

def containsBy {K V : Type} (eqk : K → K → Bool) (m : List (K × V)) (key : K) : Bool :=
  (lookupBy eqk m key).isSome

/-- HashMap::insert: replace the value of an existing equal key, else append. -/
def insertBy {K V : Type} (eqk : K → K → Bool) (m : List (K × V)) (key : K) (v : V) :
    List (K × V) :=
  if containsBy eqk m key then
    m.map (fun p => if eqk p.1 key then (p.1, v) else p)
  else m ++ [(key, v)]

/-- HashMap::remove: drop the binding of the key and return its value. -/
def removeBy {K V : Type} (eqk : K → K → Bool) (m : List (K × V)) (key : K) :
    Option V × List (K × V) :=
  (lookupBy eqk m key, m.filter (fun p => ¬ eqk p.1 key))

/-- HashSet::insert: add unless an equal element is present. -/
def setInsertBy {A : Type} (eq : A → A → Bool) (s : List A) (x : A) : List A :=
  if s.any (fun y => eq y x) then s else s ++ [x]

/-- HashSet::remove: drop the equal element. -/
def setRemoveBy {A : Type} (eq : A → A → Bool) (s : List A) (x : A) : List A :=
  s.filter (fun y => ¬ eq y x)

def setMemBy {A : Type} (eq : A → A → Bool) (s : List A) (x : A) : Bool :=
  s.any (fun y => eq y x)

/-- Structural key equality for Term keys. -/
def termBeq (a b : Term) : Bool := a = b

/-- Structural key equality for String keys. -/
def strBeq (a b : String) : Bool := a = b

/-- Structural equality for Triple entries (derived Eq in Rust). -/
def tripleBeq (a b : Triple) : Bool := a = b

end VOWLR

namespace VOWLR

def natBeq (a b : Nat) : Bool := a = b

/-! ## SerializationDataBuffer (serializers.rs) -/

/-- The single working set of one serialization run.  HashMaps become
association lists, HashSets become lists; Edge-keyed collections use the
custom edgeEq, all other keys use structural equality, matching the Rust
Eq/Hash implementations in play. -/
structure SerializationDataBuffer where
  node_element_buffer : List (Term × ElementType)
  edge_element_buffer : List (Term × ElementType)
  edge_redirection : List (Term × Term)
  edges_include_map : List (Term × List Edge)
  global_element_mappings : List (ElementType × Nat)
  property_edge_map : List (String × Edge)
  property_domain_map : List (String × List String)
  property_range_map : List (String × List String)
  label_buffer : List (Term × String)
  edge_label_buffer : List (Edge × String)
  edge_buffer : List Edge
  edge_characteristics : List (Edge × List String)
  node_characteristics : List (Term × List String)
  unknown_buffer : List (Term × List Triple)
  failed_buffer : List (Option Triple × String)
  document_base : Option String
deriving DecidableEq, Repr

def SerializationDataBuffer.new : SerializationDataBuffer :=
  ⟨[], [], [], [], [], [], [], [], [], [], [], [], [], [], [], none⟩

/-! ## Serializer state and pure helpers (serializers/frontend.rs) -/

structure GraphDisplayDataSolutionSerializer where
  resolvable_iris : List String

def GraphDisplayDataSolutionSerializer.new : GraphDisplayDataSolutionSerializer :=
  ⟨getReservedIris⟩

/-- True when the term is a key of the node or the edge classification
buffer (the two early-return cases of resolve). -/
def inElementBuffers (b : SerializationDataBuffer) (x : Term) : Bool :=
  containsBy termBeq b.node_element_buffer x ∨ containsBy termBeq b.edge_element_buffer x

/-- The while-let chase of resolve over the redirection map.  The Rust loop
has no cycle guard and would diverge on a cyclic map; the chase is bounded
here by the map size, which covers every acyclic chain (a chain visits each
key at most once before the lookup fails). -/
def resolveChase (b : SerializationDataBuffer) : Nat → Term → Option Term
  | 0, _ => none
  | fuel+1, x =>
    match lookupBy termBeq b.edge_redirection x with
    | some redirected =>
      if inElementBuffers b redirected then some redirected
      else resolveChase b fuel redirected
    | none => none

/-- resolve: a term resolves to itself if classified, else the redirection
chain is walked until a classified term appears. -/
def resolve (b : SerializationDataBuffer) (x : Term) : Option Term :=
  if inElementBuffers b x then some x
  else resolveChase b b.edge_redirection.length x

/-- resolve_so: resolve subject and (when present) object of a row. -/
def resolveSo (b : SerializationDataBuffer) (t : Triple) : Option Term × Option Term :=
  (resolve b t.id,
   match t.target with
   | some target => resolve b target
   | none => none)

/-- add_to_element_buffer: first classification wins; a second classification
attempt for the same subject is skipped (with a warning in the source). -/
def addToElementBuffer (m : List (Term × ElementType)) (t : Triple)
    (element_type : ElementType) : List (Term × ElementType) :=
  if containsBy termBeq m t.id then m else m ++ [(t.id, element_type)]

/-- add_to_unknown_buffer: park a triple (set-deduplicated) under a key. -/
def addToUnknownBuffer (b : SerializationDataBuffer) (element_iri : Term)
    (t : Triple) : SerializationDataBuffer :=
  match lookupBy termBeq b.unknown_buffer element_iri with
  | some parked =>
    { b with unknown_buffer :=
        insertBy termBeq b.unknown_buffer element_iri (setInsertBy tripleBeq parked t) }
  | none => { b with unknown_buffer := b.unknown_buffer ++ [(element_iri, [t])] }

/-- insert_edge_include: record an edge in an endpoint's inclusion set. -/
def insertEdgeInclude (b : SerializationDataBuffer) (element_iri : Term)
    (edge : Edge) : SerializationDataBuffer :=
  let cur := (lookupBy termBeq b.edges_include_map element_iri).getD []
  { b with edges_include_map :=
      insertBy termBeq b.edges_include_map element_iri (setInsertBy edgeEq cur edge) }

/-- Substring test modelling Rust str::contains. -/
def strContains (s pat : String) : Bool := decide (pat.toList <:+: s.toList)

/-- is_external: blank nodes are never external; with a known document base a
named term is external iff its trimmed IRI neither contains the base nor is a
reserved vocabulary IRI; without a base the answer is false (with a warning
in the source). -/
def isExternal (ser : GraphDisplayDataSolutionSerializer)
    (b : SerializationDataBuffer) (iri : Term) : Bool :=
  if iri.isBlankNode then false
  else
    let cleanIri := trimTagCircumfix iri.toDisplayString
    match b.document_base with
    | some base =>
      ¬ strContains cleanIri base ∧ ¬ ser.resolvable_iris.contains cleanIri
    | none => false

/-- The four property-shaped edge kinds for which insert_edge populates the
edge's property field. -/
def shouldHashPropertyTypes : List ElementType :=
  [ElementType.Owl (.Edge .ObjectProperty),
   ElementType.Owl (.Edge .DatatypeProperty),
   ElementType.Owl (.Edge .DeprecatedProperty),
   ElementType.Owl (.Edge .ExternalProperty)]

/-- insert_edge: returns the updated buffer and the created edge, if any.
Both endpoints resolved: build the edge (externality upgrades every kind
except NoDraw to ExternalProperty), insert it into the edge set and both
inclusion maps, and record its label.  Unresolved subject: park under the
subject key.  Resolved subject, unresolved object: park under the object
term when the row has one, otherwise the row is dropped.  Neither resolved:
park under the subject key. -/
def insertEdge (ser : GraphDisplayDataSolutionSerializer)
    (b : SerializationDataBuffer) (t : Triple) (edge_type : ElementType)
    (label : Option String) : SerializationDataBuffer × Option Edge :=
  let new_type :=
    if edge_type ≠ ElementType.NoDraw ∧ isExternal ser b t.id then
      ElementType.Owl (.Edge .ExternalProperty)
    else edge_type
  match resolveSo b t with
  | (some sub_iri, some obj_iri) =>
    let property :=
      if shouldHashPropertyTypes.contains new_type then some t.element_type else none
    let edge : Edge :=
      { subject := sub_iri, element_type := new_type, object := obj_iri,
        property := property }
    let b := { b with edge_buffer := setInsertBy edgeEq b.edge_buffer edge }
    let b := insertEdgeInclude b sub_iri edge
    let b := insertEdgeInclude b obj_iri edge
    let newLabels :=
      insertBy edgeEq b.edge_label_buffer edge (label.getD new_type.toDisplay)
    let b := { b with edge_label_buffer := newLabels }
    (b, some edge)
  | (none, some _) => (addToUnknownBuffer b t.id t, none)
  | (some _, none) =>
    match t.target with
    | some obj_iri => (addToUnknownBuffer b obj_iri t, none)
    | none => (b, none)
  | (none, none) => (addToUnknownBuffer b t.id t, none)

/-- upgrade_node_type: only a node currently classified as plain owl Class is
replaced by the new element; an unresolved subject is a logged no-op. -/
def upgradeNodeType (b : SerializationDataBuffer) (iri : Term)
    (new_element : ElementType) : SerializationDataBuffer :=
  match lookupBy termBeq b.node_element_buffer iri with
  | some old_elem =>
    if old_elem = ElementType.Owl (.Node .Class) then
      { b with node_element_buffer :=
          insertBy termBeq b.node_element_buffer iri new_element }
    else b
  | none => b

/-- extend_element_label: append on a new line, or start the label. -/
def extendElementLabel (b : SerializationDataBuffer) (element : Term)
    (label_to_append : String) : SerializationDataBuffer :=
  match lookupBy termBeq b.label_buffer element with
  | some label =>
    { b with label_buffer :=
        insertBy termBeq b.label_buffer element (label ++ "\n" ++ label_to_append) }
  | none =>
    { b with label_buffer := b.label_buffer ++ [(element, label_to_append)] }

/-- create_node: builds a synthesized placeholder triple.  NamedNode IRI
validation lives in the external oxrdf crate and is modelled as always
succeeding, so the Result is collapsed to the Ok payload. -/
def createNode (id : String) (node_type : Term) (object_iri : Option String) : Triple :=
  { id := Term.namedNode id, element_type := node_type,
    target := object_iri.map Term.namedNode }

/-- insert_characteristic: when the subject resolves and already has a
characteristics entry, the name is appended; when it resolves but has no
entry yet, nothing is stored (the insertion statement in the source is
commented out); when it does not resolve, the row is parked. -/
def insertCharacteristic (b : SerializationDataBuffer) (t : Triple)
    (arg : String) : SerializationDataBuffer :=
  match resolve b t.id with
  | some s =>
    match lookupBy termBeq b.node_characteristics s with
    | some chars =>
      { b with node_characteristics :=
          insertBy termBeq b.node_characteristics s (chars ++ [arg]) }
    | none => b
  | none => addToUnknownBuffer b t.id t

/-- The per-edge retargeting step of update_edges. -/
def retargetEdge (old new : Term) (e : Edge) : Edge :=
  let e := if e.object = old then { e with object := new } else e
  if e.subject = old then { e with subject := new } else e

/-- update_edges: every edge recorded as touching the old node is removed
from the edge set, retargeted, reinserted and added to the new node's
inclusion set. -/
def updateEdges (b : SerializationDataBuffer) (old new : Term) :
    SerializationDataBuffer :=
  let (old_edges, m) := removeBy termBeq b.edges_include_map old
  let b := { b with edges_include_map := m }
  match old_edges with
  | some edges =>
    edges.foldl (fun b e =>
      let b := { b with edge_buffer := setRemoveBy edgeEq b.edge_buffer e }
      let e := retargetEdge old new e
      let b := { b with edge_buffer := setInsertBy edgeEq b.edge_buffer e }
      insertEdgeInclude b new e) b
  | none => b

/-! ## Recursive helpers

check_unknown_buffer replays parked rows through write_node_triple, which is
therefore mutually recursive with insert_node / redirect_iri / merge_nodes.
The helpers are parameterized by the replay callback; write_node_triple ties
the knot with a fuel parameter (each replay level consumes one unit). -/

def checkUnknownBufferWith (cb : SerializationDataBuffer → Triple → SerializationDataBuffer)
    (b : SerializationDataBuffer) (term : Term) : SerializationDataBuffer :=
  let (parked, m) := removeBy termBeq b.unknown_buffer term
  match parked with
  | some triples => triples.foldl cb { b with unknown_buffer := m }
  | none => b

def insertNodeWith (cb : SerializationDataBuffer → Triple → SerializationDataBuffer)
    (b : SerializationDataBuffer) (t : Triple) (node_type : ElementType) :
    SerializationDataBuffer :=
  if containsBy termBeq b.edge_redirection t.id then b
  else
    checkUnknownBufferWith cb
      { b with node_element_buffer := addToElementBuffer b.node_element_buffer t node_type }
      t.id

def redirectIriWith (cb : SerializationDataBuffer → Triple → SerializationDataBuffer)
    (b : SerializationDataBuffer) (old new : Term) : SerializationDataBuffer :=
  checkUnknownBufferWith cb
    { b with edge_redirection := insertBy termBeq b.edge_redirection old new } old

def mergeNodesWith (cb : SerializationDataBuffer → Triple → SerializationDataBuffer)
    (b : SerializationDataBuffer) (old new : Term) : SerializationDataBuffer :=
  let b := { b with node_element_buffer := (removeBy termBeq b.node_element_buffer old).2 }
  let b := updateEdges b old new
  redirectIriWith cb b old new

end VOWLR

namespace VOWLR

/-- The owl:equivalentClass branch of write_node_triple. -/
def equivalentClassCaseWith
    (cb : SerializationDataBuffer → Triple → SerializationDataBuffer)
    (b : SerializationDataBuffer) (t : Triple) : SerializationDataBuffer :=
  match t.target with
  | some target =>
    if target.isNamedNode then
      -- Case 1: the subject absorbs the named object.
      -- Move the object label to the subject.
      let b :=
        match removeBy termBeq b.label_buffer target with
        | (some label, lb) =>
          extendElementLabel { b with label_buffer := lb } t.id label
        | (none, _) => b
      -- Remove the object from existence.
      match removeBy termBeq b.node_element_buffer target with
      | (some _, nb) =>
        -- Case 1.1: the object is in the element buffer.
        let b := mergeNodesWith cb { b with node_element_buffer := nb } target t.id
        upgradeNodeType b t.id (ElementType.Owl (.Node .EquivalentClass))
      | (none, _) =>
        -- Case 1.2: look in the unknown buffer.
        match removeBy termBeq b.unknown_buffer target with
        | (some _, ub) =>
          -- pending rows for the object are discarded (logged, not merged)
          let b := { b with unknown_buffer := ub }
          upgradeNodeType b t.id (ElementType.Owl (.Node .EquivalentClass))
        | (none, _) =>
          let msg :=
            "Failed to merge object of equivalence relation into subject: object not found"
          { b with failed_buffer := b.failed_buffer ++ [(some t, msg)] }
    else if target.isBlankNode then
      -- Case 2: anonymous construct.
      match resolveSo b t with
      | (some index_s, some index_o) => mergeNodesWith cb b index_o index_s
      | (some index_s, none) =>
        match t.target with
        | some tgt => redirectIriWith cb b tgt index_s
        | none =>
          { b with failed_buffer :=
              b.failed_buffer ++ [(some t, "Failed to redirect object: not found")] }
      | (none, _) => addToUnknownBuffer b target t
    else
      let msg :=
        "Visualization of equivalence relations between classes and literals is not supported"
      { b with failed_buffer := b.failed_buffer ++ [(some t, msg)] }
  | none =>
    { b with failed_buffer :=
        b.failed_buffer ++ [(some t, "Subject of equivalence relation is missing an object")] }

/-- The fallback branch of write_node_triple for property-domain/range rows:
resolve domain, property and range; synthesize a Thing/Literal placeholder
for a missing endpoint where the source does; draw the ObjectProperty edge
and record the property's domain/range; otherwise defer to the unknown
buffer keyed as in the source. -/
def propertyRowStep (b : SerializationDataBuffer) (t : Triple) (target : Term) :
    SerializationDataBuffer × Option (List Triple) × Option Triple :=
  match resolve b t.id, resolve b t.element_type, resolve b target with
  | some _domain, some _property, some _range => (b, none, some t)
  | some domain, some property, none =>
    let node : Option Triple :=
      if target = Term.namedNode owlThingIri then
        let target_iri := trimTagCircumfix (domain.toDisplayString ++ "_thing")
        some (createNode target_iri (Term.namedNode owlThingIri) none)
      else if target = Term.namedNode rdfsLiteralIri then
        let target_iri := trimTagCircumfix (property.toDisplayString ++ "_literal")
        some (createNode target_iri (Term.namedNode rdfsLiteralIri) none)
      else none
    match node with
    | some node =>
      (b, some [node],
       some { id := t.id, element_type := t.element_type, target := some node.id })
    | none => (addToUnknownBuffer b target t, none, none)
  | none, some _property, some range =>
    let node : Option Triple :=
      if target = Term.namedNode owlThingIri then
        let target_iri := trimTagCircumfix (range.toDisplayString ++ "_thing")
        some (createNode target_iri (Term.namedNode owlThingIri) none)
      else if target = Term.namedNode rdfsLiteralIri then
        let target_iri := trimTagCircumfix (range.toDisplayString ++ "_literal")
        some (createNode target_iri (Term.namedNode rdfsLiteralIri) none)
      else none
    match node with
    | some node =>
      (b, some [node],
       some { id := node.id, element_type := t.element_type, target := node.target })
    | none => (addToUnknownBuffer b target t, none, none)
  | none, some property, none =>
    if t.element_type = Term.namedNode owlDatatypePropertyIri then
      -- NamedNode validation is external (oxrdf) and modelled as succeeding.
      let local_literal := Term.namedNode (property.toDisplayString ++ "_locallitral")
      let literal_triple :=
        createNode local_literal.toDisplayString (Term.namedNode rdfsLiteralIri) none
      let local_thing := Term.namedNode (property.toDisplayString ++ "_localthing")
      let thing_triple :=
        createNode local_thing.toDisplayString (Term.namedNode owlThingIri) none
      (b, some [literal_triple, thing_triple],
       some { id := thing_triple.id, element_type := t.element_type,
              target := some literal_triple.id })
    else if t.element_type = Term.namedNode owlObjectPropertyIri then
      let global_thing := Term.namedNode (("<" ++ owlThingIri ++ ">") ++ "_thing")
      let node := createNode global_thing.toDisplayString global_thing none
      (b, some [node],
       some { id := node.id, element_type := t.element_type, target := some node.id })
    else (b, none, none)
  | some _, none, some _ => (addToUnknownBuffer b t.element_type t, none, none)
  | _, _, _ => (addToUnknownBuffer b t.id t, none, none)

/-- The fallback branch of write_node_triple wired together: compute the
resolution step, insert any synthesized placeholder nodes, then draw the
ObjectProperty edge and record the property's domain/range. -/
def propertyFallbackWith (ser : GraphDisplayDataSolutionSerializer)
    (cb : SerializationDataBuffer → Triple → SerializationDataBuffer)
    (b : SerializationDataBuffer) (t : Triple) : SerializationDataBuffer :=
  match t.target with
  | some target =>
    let step := propertyRowStep b t target
    let b := step.1
    let b :=
      match step.2.1 with
      | some node_triples =>
        node_triples.foldl (fun b nt =>
          if nt.element_type = Term.namedNode owlThingIri then
            insertNodeWith cb b nt (ElementType.Owl (.Node .Thing))
          else if nt.element_type = Term.namedNode rdfsLiteralIri then
            insertNodeWith cb b nt (ElementType.Rdfs (.Node .Literal))
          else b) b
      | none => b
    match step.2.2 with
    | some edge_triple =>
      let lbl := lookupBy termBeq b.label_buffer edge_triple.element_type
      let r := insertEdge ser b edge_triple (ElementType.Owl (.Edge .ObjectProperty)) lbl
      match r.2 with
      | some edge =>
        let key := edge_triple.element_type.toDisplayString
        let b := { r.1 with property_edge_map := insertBy strBeq r.1.property_edge_map key edge }
        -- the expect on the target cannot fire when an edge was produced
        let dom := ((edge_triple.target.map Term.toDisplayString).getD "")
        let curDom := (lookupBy strBeq b.property_domain_map key).getD []
        let b := { b with property_domain_map :=
                     insertBy strBeq b.property_domain_map key (setInsertBy strBeq curDom dom) }
        let curRan := (lookupBy strBeq b.property_range_map key).getD []
        let ran := edge_triple.id.toDisplayString
        { b with property_range_map :=
            insertBy strBeq b.property_range_map key (setInsertBy strBeq curRan ran) }
      | none => r.1
    | none => b
  | none => b

/-- One unfolding of write_node_triple: the full vocabulary dispatch, with
the replay callback abstracted. -/
def writeNodeTripleBody (ser : GraphDisplayDataSolutionSerializer)
    (cb : SerializationDataBuffer → Triple → SerializationDataBuffer)
    (b : SerializationDataBuffer) (t : Triple) : SerializationDataBuffer :=
  match t.element_type with
  | .blankNode bnode =>
    let msg := "Illegal blank node during serialization: " ++ "_:" ++ bnode
    { b with failed_buffer := b.failed_buffer ++ [(some t, msg)] }
  | .literal value =>
    if value = "blanknode" then
      insertNodeWith cb b t (ElementType.Owl (.Node .AnonymousClass))
    else b
  | .namedNode uri =>
    if uri = rdfPropertyIri then
      (insertEdge ser b t (ElementType.Rdf (.Edge .RdfProperty)) none).1
    else if uri = rdfsClassIri then
      insertNodeWith cb b t (ElementType.Rdfs (.Node .Class))
    else if uri = rdfsDatatypeIri then
      insertNodeWith cb b t (ElementType.Rdfs (.Node .Datatype))
    else if uri = rdfsDomainIri then b
    else if uri = rdfsLiteralIri then
      insertNodeWith cb b t (ElementType.Rdfs (.Node .Literal))
    else if uri = rdfsRangeIri then b
    else if uri = rdfsResourceIri then
      insertNodeWith cb b t (ElementType.Rdfs (.Node .Resource))
    else if uri = rdfsSubClassOfIri then
      (insertEdge ser b t (ElementType.Rdfs (.Edge .SubclassOf)) none).1
    else if uri = owlClassIri then
      insertNodeWith cb b t (ElementType.Owl (.Node .Class))
    else if uri = owlComplementOfIri then
      let b := (insertEdge ser b t ElementType.NoDraw none).1
      if t.target.isSome then
        match resolve b t.id with
        | some index => upgradeNodeType b index (ElementType.Owl (.Node .Complement))
        | none => b
      else b
    else if uri = owlDatatypePropertyIri then
      let e := ElementType.Owl (.Edge .DatatypeProperty)
      { b with edge_element_buffer := addToElementBuffer b.edge_element_buffer t e }
    else if uri = owlDeprecatedClassIri then
      insertNodeWith cb b t (ElementType.Owl (.Node .DeprecatedClass))
    else if uri = owlDeprecatedPropertyIri then
      (insertEdge ser b t (ElementType.Owl (.Edge .DeprecatedProperty)) none).1
    else if uri = owlDisjointUnionOfIri then
      let b := (insertEdge ser b t ElementType.NoDraw none).1
      if t.target.isSome then
        match resolve b t.id with
        | some index => upgradeNodeType b index (ElementType.Owl (.Node .DisjointUnion))
        | none => b
      else b
    else if uri = owlDisjointWithIri then
      (insertEdge ser b t (ElementType.Owl (.Edge .DisjointWith)) none).1
    else if uri = owlEquivalentClassIri then
      equivalentClassCaseWith cb b t
    else if uri = owlIntersectionOfIri then
      let r := insertEdge ser b t ElementType.NoDraw none
      match r.2 with
      | some edge =>
        upgradeNodeType r.1 edge.subject (ElementType.Owl (.Node .IntersectionOf))
      | none => r.1
    else if uri = owlInverseFunctionalPropertyIri then
      insertCharacteristic b t "InverseFunctionalProperty"
    else if uri = owlObjectPropertyIri then
      let e := ElementType.Owl (.Edge .ObjectProperty)
      { b with edge_element_buffer := addToElementBuffer b.edge_element_buffer t e }
    else if uri = owlOntologyIri then
      match b.document_base with
      | some _ => b
      | none =>
        { b with document_base := some (trimTagCircumfix t.id.toDisplayString) }
    else if uri = owlThingIri then
      insertNodeWith cb b t (ElementType.Owl (.Node .Thing))
    else if uri = owlUnionOfIri then
      let r := insertEdge ser b t ElementType.NoDraw none
      match r.2 with
      | some edge =>
        upgradeNodeType r.1 edge.subject (ElementType.Owl (.Node .UnionOf))
      | none => r.1
    else propertyFallbackWith ser cb b t

/-- write_node_triple, with a fuel bound on the unknown-buffer replay depth
(each replay level consumes one unit; all claims about concrete runs use
ample fuel). -/
def writeNodeTriple (ser : GraphDisplayDataSolutionSerializer) :
    Nat → SerializationDataBuffer → Triple → SerializationDataBuffer
  | 0, b, _ => b
  | fuel+1, b, t => writeNodeTripleBody ser (writeNodeTriple ser fuel) b t

/-- check_all_unknowns: take the unknown buffer and replay every parked
triple once through write_node_triple. -/
def checkAllUnknowns (ser : GraphDisplayDataSolutionSerializer) (fuel : Nat)
    (b : SerializationDataBuffer) : SerializationDataBuffer :=
  let unknowns := b.unknown_buffer
  unknowns.foldl (fun b kv => kv.2.foldl (writeNodeTriple ser fuel) b)
    { b with unknown_buffer := [] }

end VOWLR

namespace VOWLR

/-! ## GraphDisplayData and the buffer-to-model conversion (serializers.rs) -/

/-- The final renderer-ready artifact: parallel elements/labels arrays,
index triples for edges, and index-keyed characteristic strings. -/
structure GraphDisplayData where
  elements : List ElementType
  labels : List String
  edges : List (Nat × Nat × Nat)
  characteristics : List (Nat × String)
  cardinalities : List (Nat × String)
deriving DecidableEq, Repr

def GraphDisplayData.new : GraphDisplayData := ⟨[], [], [], [], []⟩

structure NodeConvState where
  dd : GraphDisplayData
  iricache : List (Term × Nat)
  label_buffer : List (Term × String)

/-- One iteration of the node loop of the From impl: push the node's label
(or the element's rendered name when no label is left) and element, and cache
the assigned index. -/
def convertNodesStep (st : NodeConvState) (ent : Term × ElementType) : NodeConvState :=
  let (label_opt, lb) := removeBy termBeq st.label_buffer ent.1
  match label_opt with
  | some label =>
    let dd := { st.dd with labels := st.dd.labels ++ [label],
                           elements := st.dd.elements ++ [ent.2] }
    { dd := dd, iricache := insertBy termBeq st.iricache ent.1 (dd.elements.length - 1),
      label_buffer := lb }
  | none =>
    let dd := { st.dd with labels := st.dd.labels ++ [ent.2.toDisplay],
                           elements := st.dd.elements ++ [ent.2] }
    { dd := dd, iricache := insertBy termBeq st.iricache ent.1 (dd.elements.length - 1),
      label_buffer := lb }

structure EdgeConvState where
  dd : GraphDisplayData
  edge_label_buffer : List (Edge × String)
  edge_characteristics : List (Edge × List String)

/-- One iteration of the edge loop of the From impl: when both endpoints have
an index and the edge has a label, push the edge's own element/label pair,
the index triple, and any joined edge characteristics; otherwise the edge is
dropped (with an error log in the source). -/
def convertEdgesStep (iricache : List (Term × Nat)) (st : EdgeConvState)
    (edge : Edge) : EdgeConvState :=
  let subject_idx := lookupBy termBeq iricache edge.subject
  let object_idx := lookupBy termBeq iricache edge.object
  let (maybe_label, elb) := removeBy edgeEq st.edge_label_buffer edge
  let (chars, ech) := removeBy edgeEq st.edge_characteristics edge
  match subject_idx, object_idx, maybe_label with
  | some si, some oi, some label =>
    let dd := { st.dd with elements := st.dd.elements ++ [edge.element_type],
                           labels := st.dd.labels ++ [label] }
    let dd := { dd with edges := dd.edges ++ [(si, dd.elements.length - 1, oi)] }
    let dd :=
      match chars with
      | some cs =>
        let newChars :=
          insertBy natBeq dd.characteristics (dd.elements.length - 1)
            (String.intercalate "\n" cs)
        { dd with characteristics := newChars }
      | none => dd
    { dd := dd, edge_label_buffer := elb, edge_characteristics := ech }
  | _, _, _ => { st with edge_label_buffer := elb, edge_characteristics := ech }

/-- One iteration of the node-characteristics loop of the From impl: the
source attaches the result of Vec::pop (the LAST characteristic) to the
node's index.  The pop().unwrap() abort on an empty list cannot arise (such
an entry is never constructed) and is modelled as a skip. -/
def convertNodeCharsStep (iricache : List (Term × Nat)) (dd : GraphDisplayData)
    (ent : Term × List String) : GraphDisplayData :=
  match lookupBy termBeq iricache ent.1 with
  | some idx =>
    match ent.2.getLast? with
    | some c => { dd with characteristics := insertBy natBeq dd.characteristics idx c }
    | none => dd
  | none => dd

/-- The iricache produced by the node loop, exposed for stating theorems. -/
def SerializationDataBuffer.iricacheOf (b : SerializationDataBuffer) : List (Term × Nat) :=
  (b.node_element_buffer.foldl convertNodesStep
    ⟨GraphDisplayData.new, [], b.label_buffer⟩).iricache

/-- impl From of SerializationDataBuffer for GraphDisplayData. -/
def SerializationDataBuffer.intoGraphDisplayData (b : SerializationDataBuffer) :
    GraphDisplayData :=
  let st1 := b.node_element_buffer.foldl convertNodesStep
    ⟨GraphDisplayData.new, [], b.label_buffer⟩
  let st2 := b.edge_buffer.foldl (convertEdgesStep st1.iricache)
    ⟨st1.dd, b.edge_label_buffer, b.edge_characteristics⟩
  b.node_characteristics.foldl (convertNodeCharsStep st1.iricache) st2.dd

/-! ## Label extraction (extract_label) -/

/-- Label candidate from an already circumfix-trimmed IRI: its fragment when
one exists, else the final '/'-segment of its path.  The IRI structure
itself is parsed by the external fluent_uri crate; fragment/path extraction
is modelled directly on the IRI text. -/
def iriLabelCandidate (clean_iri : String) : Option String :=
  match clean_iri.splitOn "#" with
  | [] => none
  | [_] =>
    let parts := clean_iri.splitOn "/"
    if parts.length ≤ 1 then none else parts.getLast?
  | _ :: rest => some (String.intercalate "#" rest)

/-- extract_label: a present non-empty label wins (first writer per subject);
otherwise a label is derived from the subject IRI (fragment, else last path
segment); blank nodes and literals fail the IRI parse and stay unlabeled. -/
def extractLabel (b : SerializationDataBuffer) (label : Option Term)
    (id_term : Term) : SerializationDataBuffer :=
  if containsBy termBeq b.label_buffer id_term then b
  else
    match label with
    | some l =>
      if l.toDisplayString ≠ "" then
        { b with label_buffer := insertBy termBeq b.label_buffer id_term l.toDisplayString }
      else b
    | none =>
      match id_term with
      | .namedNode _ =>
        match iriLabelCandidate (trimTagCircumfix id_term.toDisplayString) with
        | some s =>
          { b with label_buffer := insertBy termBeq b.label_buffer id_term s }
        | none => b
      | _ => b

/-! ## serialize_nodes_stream -/

/-- Model of the store-level error union; only the rendered message matters
to the serializer, which builds errors from formatted strings. -/
inductive VOWLRStoreError where
  | err (msg : String)
deriving DecidableEq, Repr

/-- One query result row: optional bindings of the four query variables. -/
structure QuerySolution where
  id : Option Term
  nodeType : Option Term
  target : Option Term
  label : Option Term
deriving DecidableEq, Repr

/-- The failure report text built when the failed buffer is non-empty. -/
def mkFailureReport (failed : List (Option Triple × String)) : String :=
  (failed.foldl (fun acc p =>
    acc ++ "\t" ++
      (match p.1 with
       | some t => t.toDisplayString ++ " : " ++ p.2
       | none => "NO TRIPLE : " ++ p.2) ++ "\n") "[\n") ++ "]"

/-- The row-stream loop of serialize_nodes_stream: a row-level error aborts
the call; rows missing id or nodeType are skipped; otherwise label
extraction and classification run; after the stream the unknowns are
replayed once and the failure list decides between error (output untouched)
and success (output overwritten with the converted buffer). -/
def serializeGo (ser : GraphDisplayDataSolutionSerializer) (fuel : Nat)
    (data : GraphDisplayData) :
    List (Except VOWLRStoreError QuerySolution) → SerializationDataBuffer →
    Except VOWLRStoreError Unit × GraphDisplayData
  | [], buf =>
    let buf := checkAllUnknowns ser fuel buf
    if buf.failed_buffer.isEmpty then ((Except.ok ()), buf.intoGraphDisplayData)
    else
      (Except.error (.err ("Serialization failed (" ++ toString buf.failed_buffer.length
        ++ " errors): " ++ mkFailureReport buf.failed_buffer)), data)
  | (Except.error e) :: _, _ => (Except.error e, data)
  | (Except.ok sol) :: rest, buf =>
    match sol.id, sol.nodeType with
    | some id_term, some node_type_term =>
      let buf := extractLabel buf sol.label id_term
      let buf := writeNodeTriple ser fuel buf
        { id := id_term, element_type := node_type_term, target := sol.target }
      serializeGo ser fuel data rest buf
    | _, _ => serializeGo ser fuel data rest buf

/-- serialize_nodes_stream: starts from a fresh buffer; returns the call
result together with the final contents of the caller's output slot. -/
def serializeNodesStream (ser : GraphDisplayDataSolutionSerializer) (fuel : Nat)
    (data : GraphDisplayData)
    (rows : List (Except VOWLRStoreError QuerySolution)) :
    Except VOWLRStoreError Unit × GraphDisplayData :=
  serializeGo ser fuel data rows SerializationDataBuffer.new

/-! ## Store wrapper (store.rs): complete_upload -/

/-- The parsed form of an uploaded ontology file (quads ready to bulk-load);
its structure is irrelevant to the upload lifecycle. -/
abbrev ParsedOntology : Type := List String

/-- VOWLRStore: the session (abstracted to its quad list) and the single-slot
in-progress upload handle (abstracted to the buffered temp-file bytes). -/
structure VOWLRStore where
  session : List String
  upload_handle : Option (List UInt8)
deriving DecidableEq, Repr

/-- Outcomes of the external effects performed by complete_upload: flushing
the temp file, running the loader on it, and bulk-loading into the session.
Each is an oracle so that every success/failure path can be analysed. -/
structure CompleteUploadEnv where
  flushResult : Except VOWLRStoreError Unit
  parseResult : List UInt8 → Except VOWLRStoreError ParsedOntology
  loadResult : List String → ParsedOntology → Except VOWLRStoreError (List String)

/-- complete_upload: with no upload in progress the call is a silent no-op.
With an upload in progress, the flush, the loader and the bulk load each
propagate their error with the try operator, which returns before the
handle-clearing assignment; only the success path reaches it. -/
def completeUpload (env : CompleteUploadEnv) (s : VOWLRStore) :
    Except VOWLRStoreError Unit × VOWLRStore :=
  match s.upload_handle with
  | some file =>
    match env.flushResult with
    | .error e => (.error e, s)
    | .ok _ =>
      match env.parseResult file with
      | .error e => (.error e, s)
      | .ok parsed =>
        match env.loadResult s.session parsed with
        | .error e => (.error e, s)
        | .ok newSession => (.ok (), { session := newSession, upload_handle := none })
  | none => (.ok (), { s with upload_handle := none })

end VOWLR

namespace VOWLR

/-! ## Concrete inputs used by counterexamples and witnesses -/

def defaultSerializer : GraphDisplayDataSolutionSerializer :=
  GraphDisplayDataSolutionSerializer.new

def exMother : Term := Term.namedNode "http://example.com#Mother"
def exParent : Term := Term.namedNode "http://example.com#Parent"
def exGuardian : Term := Term.namedNode "http://example.com#Guardian"
def exWarden : Term := Term.namedNode "http://example.com#Warden"
def exWarden1 : Term := Term.namedNode "http://example.com#Warden1"

/-- Membership of a triple in the parked set under a key of the unknown
buffer. -/
def parkedUnder (b : SerializationDataBuffer) (key : Term) (t : Triple) : Bool :=
  ((lookupBy termBeq b.unknown_buffer key).getD []).any (fun y => tripleBeq y t)

/-- Run a list of rows through write_node_triple from a fresh buffer. -/
def runRows (rows : List Triple) : SerializationDataBuffer :=
  rows.foldl (writeNodeTriple defaultSerializer 32) SerializationDataBuffer.new

/-- The four rows named by the claim, in order. -/
def c1Rows : List Triple :=
  [ { id := exMother, element_type := Term.namedNode rdfsSubClassOfIri, target := some exParent },
    { id := exWarden, element_type := Term.namedNode rdfsSubClassOfIri, target := some exGuardian },
    { id := exWarden1, element_type := Term.namedNode owlUnionOfIri, target := some exWarden },
    { id := exGuardian, element_type := Term.namedNode owlEquivalentClassIri, target := some exWarden } ]

/-- The same four rows preceded by the owl Class declarations of the five
classes involved (as in the repository's own regression test). -/
def c1RowsAmended : List Triple :=
  [ { id := exParent, element_type := Term.namedNode owlClassIri, target := none },
    { id := exMother, element_type := Term.namedNode owlClassIri, target := none },
    { id := exGuardian, element_type := Term.namedNode owlClassIri, target := none },
    { id := exWarden, element_type := Term.namedNode owlClassIri, target := none },
    { id := exWarden1, element_type := Term.namedNode owlClassIri, target := none } ]
  ++ c1Rows

/-- The post-state asserted by the claim for the equivalence-merge scenario. -/
def c1Post (b : SerializationDataBuffer) : Prop :=
  containsBy termBeq b.node_element_buffer exGuardian = true
  ∧ containsBy termBeq b.node_element_buffer exWarden = false
  ∧ lookupBy termBeq b.edge_redirection exWarden = some exGuardian
  ∧ setMemBy edgeEq b.edge_buffer
      { subject := exWarden1, element_type := ElementType.NoDraw,
        object := exGuardian, property := none } = true

instance (b : SerializationDataBuffer) : Decidable (c1Post b) := by
  unfold c1Post; infer_instance

def exPropP : Term := Term.namedNode "http://example.com#p"

/-- The buffer after classifying exPropP as an object property. -/
def c3Buffer1 : SerializationDataBuffer :=
  writeNodeTriple defaultSerializer 8 SerializationDataBuffer.new
    { id := exPropP, element_type := Term.namedNode owlObjectPropertyIri, target := none }

/-- The buffer after additionally processing the InverseFunctionalProperty
row for exPropP. -/
def c3Buffer2 : SerializationDataBuffer :=
  writeNodeTriple defaultSerializer 8 c3Buffer1
    { id := exPropP, element_type := Term.namedNode owlInverseFunctionalPropertyIri,
      target := none }

def c4Subject : Term := Term.namedNode "http://example.com#A"

/-- A buffer in which the C4 subject is already classified. -/
def c4Buffer : SerializationDataBuffer :=
  { SerializationDataBuffer.new with
      node_element_buffer := [(c4Subject, ElementType.Owl (.Node .Class))] }

/-- A subClassOf row with a resolvable subject and no target at all. -/
def c4Triple : Triple :=
  { id := c4Subject, element_type := Term.namedNode rdfsSubClassOfIri, target := none }

def c8Node : Term := Term.namedNode "http://example.com#A"

/-- A buffer whose only node has the two recorded characteristics c1 and c2. -/
def c8Buffer : SerializationDataBuffer :=
  { SerializationDataBuffer.new with
      node_element_buffer := [(c8Node, ElementType.Owl (.Node .Class))],
      label_buffer := [(c8Node, "a")],
      node_characteristics := [(c8Node, ["c1", "c2"])] }

/-- An upload environment whose flush fails. -/
def c9FlushFailEnv : CompleteUploadEnv :=
  { flushResult := Except.error (.err "flush failed"),
    parseResult := fun _ => Except.ok ([] : List String),
    loadResult := fun s _ => Except.ok s }

/-- An upload environment in which every step succeeds. -/
def c9OkEnv : CompleteUploadEnv :=
  { flushResult := Except.ok (),
    parseResult := fun _ => Except.ok (["q1"] : List String),
    loadResult := fun s p => Except.ok (s ++ p) }

/-- A store with an upload in progress. -/
def c9Store : VOWLRStore := { session := [], upload_handle := some [7] }

def c7OntologyRow : Triple :=
  { id := Term.namedNode "http://example.com#", element_type := Term.namedNode owlOntologyIri,
    target := none }

def c7SecondOntologyRow : Triple :=
  { id := Term.namedNode "http://other.example.org#",
    element_type := Term.namedNode owlOntologyIri, target := none }

/-- A buffer whose document base is already set. -/
def c7BaseSetBuffer : SerializationDataBuffer :=
  { SerializationDataBuffer.new with document_base := some "http://example.com#" }

def c10Rows : List (Except VOWLRStoreError QuerySolution) :=
  [Except.error (.err "row failed")]

def c10Data : GraphDisplayData :=
  { elements := [ElementType.Owl (.Node .Class)], labels := ["x"],
    edges := [], characteristics := [], cardinalities := [] }

end VOWLR

namespace VOWLR

/-! ## Basic lemmas about the term order -/

theorem Term.eq_of_rank_payload {a b : Term} (hr : a.rank = b.rank)
    (hp : a.payload = b.payload) : a = b := by
  cases a <;> cases b <;> simp_all [Term.rank, Term.payload]

theorem Term.le_total_bool (a b : Term) : a.le b = true ∨ b.le a = true := by
  unfold Term.le
  by_cases h : a.rank = b.rank
  · rw [if_pos h, if_pos h.symm]
    rcases le_total a.payload b.payload with hp | hp
    · exact Or.inl (decide_eq_true hp)
    · exact Or.inr (decide_eq_true hp)
  · have h2 : ¬ b.rank = a.rank := fun hh => h hh.symm
    rw [if_neg h, if_neg h2]
    simp only [decide_eq_true_eq]
    omega

theorem Term.le_antisymm_bool {a b : Term} (h1 : a.le b = true)
    (h2 : b.le a = true) : a = b := by
  unfold Term.le at h1 h2
  by_cases h : a.rank = b.rank
  · rw [if_pos h] at h1
    rw [if_pos h.symm] at h2
    exact Term.eq_of_rank_payload h
      (le_antisymm (of_decide_eq_true h1) (of_decide_eq_true h2))
  · have hb : ¬ b.rank = a.rank := fun hh => h hh.symm
    rw [if_neg h] at h1
    rw [if_neg hb] at h2
    have ha := of_decide_eq_true h1
    have hc := of_decide_eq_true h2
    omega

/-! ## Claim C5 -/

/-- Claim C5: for all terms A and B, the DisjointWith edges (A, B) and
(B, A) with no property compare equal under the Edge equality, hash through
the same atom sequence, and collapse to a single entry when both are
inserted into a hash set. -/
theorem claim_C5 (A B : Term) :
    edgeEq
      { subject := A, element_type := ElementType.Owl (.Edge .DisjointWith),
        object := B, property := none }
      { subject := B, element_type := ElementType.Owl (.Edge .DisjointWith),
        object := A, property := none } = true
    ∧ edgeHashKey
        { subject := A, element_type := ElementType.Owl (.Edge .DisjointWith),
          object := B, property := none }
      = edgeHashKey
        { subject := B, element_type := ElementType.Owl (.Edge .DisjointWith),
          object := A, property := none }
    ∧ (setInsertBy edgeEq
        (setInsertBy edgeEq []
          { subject := A, element_type := ElementType.Owl (.Edge .DisjointWith),
            object := B, property := none })
        { subject := B, element_type := ElementType.Owl (.Edge .DisjointWith),
          object := A, property := none }).length = 1 := by
  refine ⟨?_, ?_, ?_⟩
  · simp [edgeEq]
  · by_cases h1 : A.le B = true <;> by_cases h2 : B.le A = true
    · have hAB := Term.le_antisymm_bool h1 h2
      subst hAB; rfl
    · simp [edgeHashKey, SYMMETRIC_EDGE_TYPES, h1, h2]
    · simp [edgeHashKey, SYMMETRIC_EDGE_TYPES, h1, h2]
    · rcases Term.le_total_bool A B with h | h
      · exact absurd h h1
      · exact absurd h h2
  · simp [setInsertBy, edgeEq]

/-! ## Claim C6 -/

/-- Claim C6: for distinct terms A and B, ObjectProperty edges (A, B) and
(B, A) with the same property term compare unequal and both survive set
insertion; and two ObjectProperty edges between the same ordered pair with
distinct property terms are likewise distinct set entries. -/
theorem claim_C6 (A B p1 p2 : Term) (hAB : A ≠ B) :
    (edgeEq
       { subject := A, element_type := ElementType.Owl (.Edge .ObjectProperty),
         object := B, property := some p1 }
       { subject := B, element_type := ElementType.Owl (.Edge .ObjectProperty),
         object := A, property := some p1 } = false
     ∧ (setInsertBy edgeEq
         (setInsertBy edgeEq []
           { subject := A, element_type := ElementType.Owl (.Edge .ObjectProperty),
             object := B, property := some p1 })
         { subject := B, element_type := ElementType.Owl (.Edge .ObjectProperty),
           object := A, property := some p1 }).length = 2)
    ∧ (p1 ≠ p2 →
       edgeEq
         { subject := A, element_type := ElementType.Owl (.Edge .ObjectProperty),
           object := B, property := some p1 }
         { subject := A, element_type := ElementType.Owl (.Edge .ObjectProperty),
           object := B, property := some p2 } = false
       ∧ (setInsertBy edgeEq
           (setInsertBy edgeEq []
             { subject := A, element_type := ElementType.Owl (.Edge .ObjectProperty),
               object := B, property := some p1 })
           { subject := A, element_type := ElementType.Owl (.Edge .ObjectProperty),
             object := B, property := some p2 }).length = 2) := by
  constructor
  · constructor
    · simp [edgeEq, hAB]
    · simp [setInsertBy, edgeEq, hAB]
  · intro hp
    constructor
    · simp [edgeEq, hp]
    · simp [setInsertBy, edgeEq, hp]

/-- Witness for claim C6 at concrete distinct terms. -/
theorem claim_C6_witness :
    (edgeEq
       { subject := Term.namedNode "a",
         element_type := ElementType.Owl (.Edge .ObjectProperty),
         object := Term.namedNode "b", property := some (Term.namedNode "p") }
       { subject := Term.namedNode "b",
         element_type := ElementType.Owl (.Edge .ObjectProperty),
         object := Term.namedNode "a", property := some (Term.namedNode "p") } = false
     ∧ (setInsertBy edgeEq
         (setInsertBy edgeEq []
           { subject := Term.namedNode "a",
             element_type := ElementType.Owl (.Edge .ObjectProperty),
             object := Term.namedNode "b", property := some (Term.namedNode "p") })
         { subject := Term.namedNode "b",
           element_type := ElementType.Owl (.Edge .ObjectProperty),
           object := Term.namedNode "a", property := some (Term.namedNode "p") }).length = 2)
    ∧ (edgeEq
         { subject := Term.namedNode "a",
           element_type := ElementType.Owl (.Edge .ObjectProperty),
           object := Term.namedNode "b", property := some (Term.namedNode "p") }
         { subject := Term.namedNode "a",
           element_type := ElementType.Owl (.Edge .ObjectProperty),
           object := Term.namedNode "b", property := some (Term.namedNode "q") } = false
       ∧ (setInsertBy edgeEq
           (setInsertBy edgeEq []
             { subject := Term.namedNode "a",
               element_type := ElementType.Owl (.Edge .ObjectProperty),
               object := Term.namedNode "b", property := some (Term.namedNode "p") })
           { subject := Term.namedNode "a",
             element_type := ElementType.Owl (.Edge .ObjectProperty),
             object := Term.namedNode "b", property := some (Term.namedNode "q") }).length = 2) := by
  have h := claim_C6 (Term.namedNode "a") (Term.namedNode "b")
    (Term.namedNode "p") (Term.namedNode "q") (by decide)
  exact ⟨h.1, h.2 (by decide)⟩

end VOWLR

namespace VOWLR

/-! ## Claim C9 -/

/-- Claim C9 counterexample: with an upload in progress and a failing flush,
complete_upload returns with the upload handle still in place, so the claim
that every call discards the handle is false. -/
theorem claim_C9_counterexample :
    (completeUpload c9FlushFailEnv c9Store).2.upload_handle ≠ none := by decide

/-- Claim C9 (amended): complete_upload discards the upload handle exactly
when it returns success (including the no-op call without an upload); when
flushing, parsing or bulk-loading fails, the early return leaves the store,
and in particular the in-progress handle, unchanged. -/
theorem claim_C9_amended (env : CompleteUploadEnv) (s : VOWLRStore) :
    ((completeUpload env s).1.isOk = true →
      (completeUpload env s).2.upload_handle = none)
    ∧ (∀ e, (completeUpload env s).1 = Except.error e →
      (completeUpload env s).2 = s) := by
  rcases s with ⟨session, handle⟩
  cases handle with
  | none => simp [completeUpload]
  | some file =>
    cases hf : env.flushResult with
    | error e => simp [completeUpload, hf, Except.isOk, Except.toBool]
    | ok u =>
      cases hp : env.parseResult file with
      | error e => simp [completeUpload, hf, hp, Except.isOk, Except.toBool]
      | ok parsed =>
        cases hl : env.loadResult session parsed with
        | error e => simp [completeUpload, hf, hp, hl, Except.isOk, Except.toBool]
        | ok ns => simp [completeUpload, hf, hp, hl, Except.isOk, Except.toBool]

/-- Witness for the amended claim C9: a fully successful upload completion
clears the handle, and a failed flush leaves the store untouched. -/
theorem claim_C9_amended_witness :
    (completeUpload c9OkEnv c9Store).2.upload_handle = none
    ∧ (completeUpload c9FlushFailEnv c9Store).2 = c9Store := by
  refine ⟨(claim_C9_amended c9OkEnv c9Store).1 (by decide), ?_⟩
  exact (claim_C9_amended c9FlushFailEnv c9Store).2
    (VOWLRStoreError.err "flush failed") (by rfl)

/-! ## Claim C10 -/

theorem serializeGo_error_preserves
    (ser : GraphDisplayDataSolutionSerializer) (fuel : Nat)
    (data : GraphDisplayData) :
    ∀ (rows : List (Except VOWLRStoreError QuerySolution))
      (buf : SerializationDataBuffer) (e : VOWLRStoreError),
      (serializeGo ser fuel data rows buf).1 = Except.error e →
      (serializeGo ser fuel data rows buf).2 = data := by
  intro rows
  induction rows with
  | nil =>
    intro buf e h
    simp only [serializeGo] at h ⊢
    split at h
    · simp at h
    · rename_i hc
      rw [if_neg hc]
  | cons row rest ih =>
    intro buf e h
    cases row with
    | error e2 => rfl
    | ok sol =>
      rcases hid : sol.id with _ | idT <;> rcases hnt : sol.nodeType with _ | ntT <;>
        simp only [serializeGo, hid, hnt] at h ⊢ <;> exact ih _ e h

/-- Claim C10: when serialize_nodes_stream returns an error (a row-level
query error or a non-empty failure list), the caller's output
GraphDisplayData is exactly what it was before the call; the output slot is
overwritten only on the success path. -/
theorem claim_C10 (ser : GraphDisplayDataSolutionSerializer) (fuel : Nat)
    (data : GraphDisplayData)
    (rows : List (Except VOWLRStoreError QuerySolution)) (e : VOWLRStoreError)
    (h : (serializeNodesStream ser fuel data rows).1 = Except.error e) :
    (serializeNodesStream ser fuel data rows).2 = data :=
  serializeGo_error_preserves ser fuel data rows SerializationDataBuffer.new e h

/-- Witness for claim C10 at a concrete erroring row stream. -/
theorem claim_C10_witness :
    (serializeNodesStream defaultSerializer 8 c10Data c10Rows).2 = c10Data :=
  claim_C10 defaultSerializer 8 c10Data c10Rows (.err "row failed") (by rfl)

/-! ## Claim C3 -/

/-- Claim C3 (code bug): with the subject already classified as an object
property, processing its owl InverseFunctionalProperty row leaves the buffer
completely unchanged — in particular the node-characteristics map stays
empty, so the characteristic is never recorded (the insertion statement in
insert_characteristic is commented out in the source). -/
theorem claim_C3_code_eval :
    c3Buffer2 = c3Buffer1 ∧ c3Buffer2.node_characteristics = [] := by decide

/-! ## Claim C1 -/

/-- Claim C1 counterexample: processing only the four listed rows from a
fresh buffer does not produce the claimed post-state (none of the five
classes is ever declared, so every row parks or discards and ex:Guardian
never enters the node buffer). -/
theorem claim_C1_counterexample : ¬ c1Post (runRows c1Rows) := by decide

/-- Claim C1 (amended): with the owl Class declarations of the five involved
classes processed first (as in the repository's own regression test),
processing the four listed rows leaves ex:Guardian in the node buffer,
removes ex:Warden from it, redirects ex:Warden to ex:Guardian, and
retargets the union edge to (ex:Warden1, NoDraw, ex:Guardian). -/
theorem claim_C1 : c1Post (runRows c1RowsAmended) := by decide

end VOWLR

namespace VOWLR

/-! ## Association-list lemmas -/

theorem lookupBy_append_some {K V : Type} (eqk : K → K → Bool)
    (m l : List (K × V)) (k : K) (v : V) (h : lookupBy eqk m k = some v) :
    lookupBy eqk (m ++ l) k = some v := by
  induction m with
  | nil => simp [lookupBy] at h
  | cons p rest ih =>
    by_cases hp : eqk p.1 k = true
    · simp only [lookupBy, hp, if_pos] at h
      simp only [List.cons_append, lookupBy, hp, if_pos]
      exact h
    · simp only [lookupBy, hp, if_neg, if_false] at h
      simp only [List.cons_append, lookupBy, hp, if_false]
      rw [if_neg (by simp [hp])]
      rw [if_neg (by simp [hp])] at h
      exact ih h

theorem lookupBy_append_none {K V : Type} (eqk : K → K → Bool)
    (m l : List (K × V)) (k : K) (h : lookupBy eqk m k = none) :
    lookupBy eqk (m ++ l) k = lookupBy eqk l k := by
  induction m with
  | nil => simp
  | cons p rest ih =>
    by_cases hp : eqk p.1 k = true
    · simp [lookupBy, hp] at h
    · simp only [lookupBy] at h
      rw [if_neg (by simp [hp])] at h
      simp only [List.cons_append, lookupBy]
      rw [if_neg (by simp [hp])]
      exact ih h

theorem lookupBy_map_replace {K V : Type} (eqk : K → K → Bool)
    (m : List (K × V)) (k : K) (v : V) (h : containsBy eqk m k = true) :
    lookupBy eqk (m.map (fun p => if eqk p.1 k then (p.1, v) else p)) k = some v := by
  induction m with
  | nil => simp [containsBy, lookupBy] at h
  | cons p rest ih =>
    simp only [List.map_cons]
    by_cases hp : eqk p.1 k = true
    · rw [hp]
      simp [lookupBy, hp]
    · have hpf : eqk p.1 k = false := by
        revert hp; cases eqk p.1 k <;> simp
      have h' : containsBy eqk rest k = true := by
        unfold containsBy lookupBy at h
        rw [if_neg (by simp [hpf])] at h
        exact h
      rw [hpf]
      simpa [lookupBy, hpf] using ih h'

theorem lookupBy_insertBy_self {K V : Type} (eqk : K → K → Bool)
    (m : List (K × V)) (k : K) (v : V) (hk : eqk k k = true) :
    lookupBy eqk (insertBy eqk m k v) k = some v := by
  unfold insertBy
  by_cases h : containsBy eqk m k = true
  · rw [if_pos h]
    exact lookupBy_map_replace eqk m k v h
  · rw [if_neg h]
    have hnone : lookupBy eqk m k = none := by
      unfold containsBy at h
      cases hl : lookupBy eqk m k with
      | none => rfl
      | some w => rw [hl] at h; simp at h
    rw [lookupBy_append_none eqk m _ k hnone]
    simp [lookupBy, hk]

theorem setMemTriple_setInsertBy (s : List Triple) (t : Triple) :
    (setInsertBy tripleBeq s t).any (fun y => tripleBeq y t) = true := by
  unfold setInsertBy
  by_cases h : s.any (fun y => tripleBeq y t) = true
  · rw [if_pos h]; exact h
  · rw [if_neg h]
    simp [List.any_append, tripleBeq]

theorem parkedUnder_addToUnknownBuffer (b : SerializationDataBuffer)
    (key : Term) (t : Triple) :
    parkedUnder (addToUnknownBuffer b key t) key t = true := by
  unfold addToUnknownBuffer parkedUnder
  cases hl : lookupBy termBeq b.unknown_buffer key with
  | some s =>
    simp only [hl]
    rw [lookupBy_insertBy_self termBeq _ key _ (by simp [termBeq])]
    exact setMemTriple_setInsertBy s t
  | none =>
    simp only [hl]
    rw [lookupBy_append_none termBeq _ _ key hl]
    simp [lookupBy, termBeq, tripleBeq]

/-! ## Claim C4 -/

/-- Claim C4 counterexample: for a row whose subject resolves but which has
no target at all, insert_edge drops the row entirely — it is parked nowhere
and the unknown buffer stays empty — so the claim that such a row is always
retained is false. -/
theorem claim_C4_counterexample :
    parkedUnder (insertEdge defaultSerializer c4Buffer c4Triple
      (ElementType.Rdfs (.Edge .SubclassOf)) none).1 c4Subject c4Triple = false
    ∧ (insertEdge defaultSerializer c4Buffer c4Triple
      (ElementType.Rdfs (.Edge .SubclassOf)) none).1.unknown_buffer = [] := by decide

/-- Claim C4 (amended): a triple whose subject fails to resolve is always
parked under the subject's key (whether or not the object resolves); a
triple whose subject resolves but whose present target fails to resolve is
parked under the object's key; but a triple whose subject resolves and which
has no target at all is dropped, leaving the buffer unchanged. -/
theorem claim_C4_amended (ser : GraphDisplayDataSolutionSerializer)
    (b : SerializationDataBuffer) (t : Triple) (edge_type : ElementType)
    (label : Option String) :
    (resolve b t.id = none →
      parkedUnder (insertEdge ser b t edge_type label).1 t.id t = true)
    ∧ (∀ s obj, resolve b t.id = some s → t.target = some obj →
        resolve b obj = none →
        parkedUnder (insertEdge ser b t edge_type label).1 obj t = true)
    ∧ (resolve b t.id ≠ none → t.target = none →
        (insertEdge ser b t edge_type label).1 = b) := by
  refine ⟨?_, ?_, ?_⟩
  · intro hs
    cases ht : t.target with
    | none =>
      simp only [insertEdge, resolveSo, hs, ht]
      exact parkedUnder_addToUnknownBuffer b t.id t
    | some obj =>
      cases hobj : resolve b obj with
      | none =>
        simp only [insertEdge, resolveSo, hs, ht, hobj]
        exact parkedUnder_addToUnknownBuffer b t.id t
      | some o =>
        simp only [insertEdge, resolveSo, hs, ht, hobj]
        exact parkedUnder_addToUnknownBuffer b t.id t
  · intro s obj hs ht hobj
    simp only [insertEdge, resolveSo, hs, ht, hobj]
    exact parkedUnder_addToUnknownBuffer b obj t
  · intro hs ht
    cases hr : resolve b t.id with
    | none => exact absurd hr hs
    | some s => simp only [insertEdge, resolveSo, hr, ht]

/-- Witness for the amended claim C4 at three concrete configurations:
an unresolvable subject is parked under the subject, an unresolvable present
object is parked under the object, and a resolvable subject with no target
leaves the buffer unchanged. -/
theorem claim_C4_amended_witness :
    parkedUnder (insertEdge defaultSerializer SerializationDataBuffer.new
      { id := c4Subject, element_type := Term.namedNode rdfsSubClassOfIri,
        target := none }
      (ElementType.Rdfs (.Edge .SubclassOf)) none).1 c4Subject
      { id := c4Subject, element_type := Term.namedNode rdfsSubClassOfIri,
        target := none } = true
    ∧ parkedUnder (insertEdge defaultSerializer c4Buffer
      { id := c4Subject, element_type := Term.namedNode rdfsSubClassOfIri,
        target := some (Term.namedNode "http://example.com#B") }
      (ElementType.Rdfs (.Edge .SubclassOf)) none).1
      (Term.namedNode "http://example.com#B")
      { id := c4Subject, element_type := Term.namedNode rdfsSubClassOfIri,
        target := some (Term.namedNode "http://example.com#B") } = true
    ∧ (insertEdge defaultSerializer c4Buffer c4Triple
      (ElementType.Rdfs (.Edge .SubclassOf)) none).1 = c4Buffer := by
  refine ⟨?_, ?_, ?_⟩
  · exact (claim_C4_amended defaultSerializer SerializationDataBuffer.new
      { id := c4Subject, element_type := Term.namedNode rdfsSubClassOfIri,
        target := none }
      (ElementType.Rdfs (.Edge .SubclassOf)) none).1 (by decide)
  · exact (claim_C4_amended defaultSerializer c4Buffer
      { id := c4Subject, element_type := Term.namedNode rdfsSubClassOfIri,
        target := some (Term.namedNode "http://example.com#B") }
      (ElementType.Rdfs (.Edge .SubclassOf)) none).2.1 c4Subject
      (Term.namedNode "http://example.com#B") (by decide) rfl (by decide)
  · exact (claim_C4_amended defaultSerializer c4Buffer c4Triple
      (ElementType.Rdfs (.Edge .SubclassOf)) none).2.2 (by decide) rfl

end VOWLR

namespace VOWLR

/-! ## More association-list lemmas (Nat-keyed characteristic map) -/

theorem lookupBy_map_replace_ne {V : Type} (m : List (Nat × V)) (k' k : Nat)
    (v : V) (h : k' ≠ k) :
    lookupBy natBeq (m.map (fun p => if natBeq p.1 k' then (p.1, v) else p)) k
      = lookupBy natBeq m k := by
  induction m with
  | nil => rfl
  | cons p rest ih =>
    simp only [List.map_cons]
    by_cases hp : p.1 = k'
    · have hb : natBeq p.1 k' = true := by simp [natBeq, hp]
      have hkf : natBeq p.1 k = false := by
        simp only [natBeq, decide_eq_false_iff_not]
        omega
      rw [hb]
      simp [lookupBy, hkf, ih]
    · have hb : natBeq p.1 k' = false := by simp [natBeq, hp]
      rw [hb]
      simp [lookupBy, ih]

theorem lookupBy_insertBy_natBeq_ne {V : Type} (m : List (Nat × V))
    (k' k : Nat) (v : V) (h : k' ≠ k) :
    lookupBy natBeq (insertBy natBeq m k' v) k = lookupBy natBeq m k := by
  unfold insertBy
  by_cases hc : containsBy natBeq m k' = true
  · rw [if_pos hc]
    exact lookupBy_map_replace_ne m k' k v h
  · rw [if_neg hc]
    cases hl : lookupBy natBeq m k with
    | some v2 => exact lookupBy_append_some natBeq m _ k v2 hl
    | none =>
      rw [lookupBy_append_none natBeq m _ k hl]
      simp [lookupBy, natBeq, h]

/-! ## The node-characteristics phase of the conversion -/

theorem charPhase_preserve (cache : List (Term × Nat)) (idx : Nat) (c : String) :
    ∀ (entries : List (Term × List String)) (dd : GraphDisplayData),
      lookupBy natBeq dd.characteristics idx = some c →
      (∀ p ∈ entries, lookupBy termBeq cache p.1 = some idx → p.2.getLast? = some c) →
      lookupBy natBeq
        (entries.foldl (convertNodeCharsStep cache) dd).characteristics idx = some c := by
  intro entries
  induction entries with
  | nil => intro dd h1 _; exact h1
  | cons p rest ih =>
    intro dd h1 h2
    simp only [List.foldl_cons]
    apply ih
    · unfold convertNodeCharsStep
      cases hc : lookupBy termBeq cache p.1 with
      | none => exact h1
      | some i =>
        cases hg : p.2.getLast? with
        | none => exact h1
        | some c2 =>
          by_cases hi : i = idx
          · subst hi
            have hcc := h2 p (List.mem_cons_self p rest) hc
            rw [hg] at hcc
            injection hcc with hcc
            subst hcc
            simpa using lookupBy_insertBy_self natBeq _ i c2 (by simp [natBeq])
          · simpa using (lookupBy_insertBy_natBeq_ne dd.characteristics i idx c2 hi).trans h1
    · intro q hq hql
      exact h2 q (List.mem_cons_of_mem p hq) hql

theorem charPhase_reach (cache : List (Term × Nat)) (t : Term)
    (cs : List String) (idx : Nat) (c : String) :
    ∀ (entries : List (Term × List String)) (dd : GraphDisplayData),
      (t, cs) ∈ entries →
      lookupBy termBeq cache t = some idx →
      cs.getLast? = some c →
      (∀ p ∈ entries, lookupBy termBeq cache p.1 = some idx → p.2.getLast? = some c) →
      lookupBy natBeq
        (entries.foldl (convertNodeCharsStep cache) dd).characteristics idx = some c := by
  intro entries
  induction entries with
  | nil => intro dd hmem; simp at hmem
  | cons p rest ih =>
    intro dd hmem hct hlast huniq
    simp only [List.foldl_cons]
    rcases List.mem_cons.mp hmem with heq | hmem2
    · subst heq
      apply charPhase_preserve
      · unfold convertNodeCharsStep
        simp only [hct, hlast]
        simpa using lookupBy_insertBy_self natBeq _ idx c (by simp [natBeq])
      · intro q hq hql
        exact huniq q (List.mem_cons_of_mem _ hq) hql
    · exact ih _ hmem2 hct hlast
        (fun q hq hql => huniq q (List.mem_cons_of_mem p hq) hql)

/-! ## Claim C8 -/

/-- Claim C8 counterexample: a node with recorded characteristics c1, c2 gets
the single string c2 attached (the popped last element), not the
newline-join of the two. -/
theorem claim_C8_counterexample :
    lookupBy natBeq (c8Buffer.intoGraphDisplayData).characteristics 0 = some "c2"
    ∧ some "c2" ≠ some (String.intercalate "\n" ["c1", "c2"]) := by decide

/-- Claim C8 (amended): for every node term with a non-empty recorded
characteristics list that received an index in the output model (and is the
only characteristics entry resolving to that index), the conversion attaches
the LAST characteristic of its list to that index — equal to the
newline-join only when the list is a singleton. -/
theorem claim_C8_amended (b : SerializationDataBuffer) (t : Term)
    (cs : List String) (idx : Nat) (c : String)
    (hmem : (t, cs) ∈ b.node_characteristics)
    (hct : lookupBy termBeq b.iricacheOf t = some idx)
    (hlast : cs.getLast? = some c)
    (huniq : ∀ p ∈ b.node_characteristics,
      lookupBy termBeq b.iricacheOf p.1 = some idx → p.2.getLast? = some c) :
    lookupBy natBeq (b.intoGraphDisplayData).characteristics idx = some c := by
  unfold SerializationDataBuffer.iricacheOf at hct huniq
  unfold SerializationDataBuffer.intoGraphDisplayData
  exact charPhase_reach _ t cs idx c b.node_characteristics _ hmem hct hlast huniq

/-- Witness for the amended claim C8 at the concrete two-characteristics
buffer. -/
theorem claim_C8_amended_witness :
    lookupBy natBeq (c8Buffer.intoGraphDisplayData).characteristics 0 = some "c2" :=
  claim_C8_amended c8Buffer c8Node ["c1", "c2"] 0 "c2" (by decide) (by decide)
    (by decide) (by decide)

end VOWLR

namespace VOWLR

/-! ## Generic fold and membership lemmas -/

theorem foldl_invariant {α β : Type} (P : β → Prop) (f : β → α → β)
    (step : ∀ b a, P b → P (f b a)) :
    ∀ (l : List α) (b : β), P b → P (l.foldl f b) := by
  intro l
  induction l with
  | nil => intro b h; exact h
  | cons a rest ih => intro b h; exact ih _ (step b a h)

theorem mem_insertBy {K V : Type} (eqk : K → K → Bool) (m : List (K × V))
    (k : K) (v : V) (p : K × V) (hp : p ∈ insertBy eqk m k v) :
    p.2 = v ∨ p ∈ m := by
  unfold insertBy at hp
  by_cases hc : containsBy eqk m k = true
  · rw [if_pos hc] at hp
    rcases List.mem_map.mp hp with ⟨q, hq, he⟩
    by_cases hqk : eqk q.1 k = true
    · rw [if_pos hqk] at he
      left; rw [← he]
    · rw [if_neg hqk] at he
      right; rw [← he]; exact hq
  · rw [if_neg hc] at hp
    rcases List.mem_append.mp hp with h1 | h1
    · right; exact h1
    · left
      have hpv : p = (k, v) := by simpa using h1
      rw [hpv]

theorem lookupBy_some_mem {K V : Type} (eqk : K → K → Bool)
    (m : List (K × V)) (k : K) (v : V) (h : lookupBy eqk m k = some v) :
    ∃ p ∈ m, p.2 = v := by
  induction m with
  | nil => simp [lookupBy] at h
  | cons q rest ih =>
    unfold lookupBy at h
    by_cases hq : eqk q.1 k = true
    · rw [if_pos hq] at h
      exact ⟨q, List.mem_cons_self q rest, (Option.some.inj h).symm ▸ rfl⟩
    · rw [if_neg hq] at h
      rcases ih h with ⟨p, hp, he⟩
      exact ⟨p, List.mem_cons_of_mem _ hp, he⟩

/-! ## Claim C2: invariants of the three conversion phases -/

theorem convertNodesStep_invariant (st : NodeConvState) (ent : Term × ElementType)
    (h1 : st.dd.elements.length = st.dd.labels.length)
    (h2 : ∀ p ∈ st.iricache, p.2 < st.dd.elements.length)
    (h3 : ∀ e ∈ st.dd.edges, e.1 < st.dd.elements.length
      ∧ e.2.1 < st.dd.elements.length ∧ e.2.2 < st.dd.elements.length) :
    (convertNodesStep st ent).dd.elements.length
      = (convertNodesStep st ent).dd.labels.length
    ∧ (∀ p ∈ (convertNodesStep st ent).iricache,
        p.2 < (convertNodesStep st ent).dd.elements.length)
    ∧ (∀ e ∈ (convertNodesStep st ent).dd.edges,
        e.1 < (convertNodesStep st ent).dd.elements.length
        ∧ e.2.1 < (convertNodesStep st ent).dd.elements.length
        ∧ e.2.2 < (convertNodesStep st ent).dd.elements.length) := by
  unfold convertNodesStep
  rcases hr : removeBy termBeq st.label_buffer ent.1 with ⟨lopt, lb⟩
  cases lopt with
  | some label =>
    simp only [hr]
    refine ⟨by simp [h1], ?_, ?_⟩
    · intro p hp
      rcases mem_insertBy _ _ _ _ _ hp with hv | hm
      · simp only [hv]
        simp
      · have := h2 p hm
        simp
        omega
    · intro e he
      have := h3 e he
      simp
      omega
  | none =>
    simp only [hr]
    refine ⟨by simp [h1], ?_, ?_⟩
    · intro p hp
      rcases mem_insertBy _ _ _ _ _ hp with hv | hm
      · simp only [hv]
        simp
      · have := h2 p hm
        simp
        omega
    · intro e he
      have := h3 e he
      simp
      omega

theorem convertEdgesStep_invariant (cache : List (Term × Nat))
    (st : EdgeConvState) (edge : Edge)
    (h1 : st.dd.elements.length = st.dd.labels.length)
    (h2 : ∀ p ∈ cache, p.2 < st.dd.elements.length)
    (h3 : ∀ e ∈ st.dd.edges, e.1 < st.dd.elements.length
      ∧ e.2.1 < st.dd.elements.length ∧ e.2.2 < st.dd.elements.length) :
    (convertEdgesStep cache st edge).dd.elements.length
      = (convertEdgesStep cache st edge).dd.labels.length
    ∧ (∀ p ∈ cache, p.2 < (convertEdgesStep cache st edge).dd.elements.length)
    ∧ (∀ e ∈ (convertEdgesStep cache st edge).dd.edges,
        e.1 < (convertEdgesStep cache st edge).dd.elements.length
        ∧ e.2.1 < (convertEdgesStep cache st edge).dd.elements.length
        ∧ e.2.2 < (convertEdgesStep cache st edge).dd.elements.length) := by
  unfold convertEdgesStep
  rcases hrl : removeBy edgeEq st.edge_label_buffer edge with ⟨mlab, elb⟩
  rcases hrc : removeBy edgeEq st.edge_characteristics edge with ⟨chars, ech⟩
  cases hsi : lookupBy termBeq cache edge.subject with
  | none =>
    cases hoi : lookupBy termBeq cache edge.object <;> cases mlab <;>
      · simp only [hrl, hrc, hsi]
        exact ⟨h1, h2, h3⟩
  | some si =>
    cases hoi : lookupBy termBeq cache edge.object with
    | none =>
      cases mlab <;>
        · simp only [hrl, hrc, hsi, hoi]
          exact ⟨h1, h2, h3⟩
    | some oi =>
      cases mlab with
      | none =>
        simp only [hrl, hrc, hsi, hoi]
        exact ⟨h1, h2, h3⟩
      | some label =>
        have hsib : si < st.dd.elements.length := by
          rcases lookupBy_some_mem _ _ _ _ hsi with ⟨p, hp, he⟩
          have := h2 p hp
          omega
        have hoib : oi < st.dd.elements.length := by
          rcases lookupBy_some_mem _ _ _ _ hoi with ⟨p, hp, he⟩
          have := h2 p hp
          omega
        simp only [hrl, hrc, hsi, hoi]
        cases chars with
        | none =>
          refine ⟨by simp [h1], ?_, ?_⟩
          · intro p hp
            have := h2 p hp
            simp
            omega
          · intro e he
            simp only [List.mem_append] at he
            rcases he with he | he
            · have := h3 e he
              simp at this ⊢
              omega
            · simp at he
              simp [he]
              omega
        | some cs =>
          refine ⟨by simp [h1], ?_, ?_⟩
          · intro p hp
            have := h2 p hp
            simp
            omega
          · intro e he
            simp only [List.mem_append] at he
            rcases he with he | he
            · have := h3 e he
              simp at this ⊢
              omega
            · simp at he
              simp [he]
              omega

theorem convertNodeCharsStep_fields (cache : List (Term × Nat))
    (dd : GraphDisplayData) (ent : Term × List String) :
    (convertNodeCharsStep cache dd ent).elements = dd.elements
    ∧ (convertNodeCharsStep cache dd ent).labels = dd.labels
    ∧ (convertNodeCharsStep cache dd ent).edges = dd.edges := by
  unfold convertNodeCharsStep
  cases lookupBy termBeq cache ent.1 with
  | none => exact ⟨rfl, rfl, rfl⟩
  | some idx =>
    cases ent.2.getLast? with
    | none => exact ⟨rfl, rfl, rfl⟩
    | some c => exact ⟨rfl, rfl, rfl⟩

theorem charPhase_fields (cache : List (Term × Nat)) :
    ∀ (entries : List (Term × List String)) (dd : GraphDisplayData),
      (entries.foldl (convertNodeCharsStep cache) dd).elements = dd.elements
      ∧ (entries.foldl (convertNodeCharsStep cache) dd).labels = dd.labels
      ∧ (entries.foldl (convertNodeCharsStep cache) dd).edges = dd.edges := by
  intro entries
  induction entries with
  | nil => intro dd; exact ⟨rfl, rfl, rfl⟩
  | cons p rest ih =>
    intro dd
    simp only [List.foldl_cons]
    rcases ih (convertNodeCharsStep cache dd p) with ⟨he, hl, hd⟩
    rcases convertNodeCharsStep_fields cache dd p with ⟨fe, fl, fd⟩
    exact ⟨he.trans fe, hl.trans fl, hd.trans fd⟩

/-- Claim C2: for every SerializationDataBuffer, the conversion to
GraphDisplayData yields elements and labels arrays of the same length, and
every edge index triple is strictly within the bounds of that common
length. -/
theorem claim_C2 (b : SerializationDataBuffer) :
    (b.intoGraphDisplayData).elements.length = (b.intoGraphDisplayData).labels.length
    ∧ ((b.intoGraphDisplayData).edges.all (fun e =>
        decide (e.1 < (b.intoGraphDisplayData).elements.length)
        && decide (e.2.1 < (b.intoGraphDisplayData).elements.length)
        && decide (e.2.2 < (b.intoGraphDisplayData).elements.length))) = true := by
  have hnode := foldl_invariant
    (fun st : NodeConvState =>
      st.dd.elements.length = st.dd.labels.length
      ∧ (∀ p ∈ st.iricache, p.2 < st.dd.elements.length)
      ∧ (∀ e ∈ st.dd.edges, e.1 < st.dd.elements.length
          ∧ e.2.1 < st.dd.elements.length ∧ e.2.2 < st.dd.elements.length))
    convertNodesStep
    (fun st ent h => convertNodesStep_invariant st ent h.1 h.2.1 h.2.2)
    b.node_element_buffer
    ⟨GraphDisplayData.new, [], b.label_buffer⟩
    ⟨rfl, by simp, by simp [GraphDisplayData.new]⟩
  set st1 := b.node_element_buffer.foldl convertNodesStep
    ⟨GraphDisplayData.new, [], b.label_buffer⟩ with hst1
  have hedge := foldl_invariant
    (fun st : EdgeConvState =>
      st.dd.elements.length = st.dd.labels.length
      ∧ (∀ p ∈ st1.iricache, p.2 < st.dd.elements.length)
      ∧ (∀ e ∈ st.dd.edges, e.1 < st.dd.elements.length
          ∧ e.2.1 < st.dd.elements.length ∧ e.2.2 < st.dd.elements.length))
    (convertEdgesStep st1.iricache)
    (fun st edge h => convertEdgesStep_invariant st1.iricache st edge h.1 h.2.1 h.2.2)
    b.edge_buffer
    ⟨st1.dd, b.edge_label_buffer, b.edge_characteristics⟩
    ⟨hnode.1, hnode.2.1, hnode.2.2⟩
  set st2 := b.edge_buffer.foldl (convertEdgesStep st1.iricache)
    ⟨st1.dd, b.edge_label_buffer, b.edge_characteristics⟩ with hst2
  rcases charPhase_fields st1.iricache b.node_characteristics st2.dd with ⟨fe, fl, fd⟩
  have hout : b.intoGraphDisplayData
      = b.node_characteristics.foldl (convertNodeCharsStep st1.iricache) st2.dd := rfl
  constructor
  · rw [hout, fe, fl]
    exact hedge.1
  · rw [hout]
    simp only [List.all_eq_true]
    intro e he
    rw [fd] at he
    rcases hedge.2.2 e he with ⟨ha, hb, hc⟩
    rw [fe]
    simp [ha, hb, hc]

end VOWLR

namespace VOWLR

/-! ## Claim C7: document-base preservation lemmas

The document base is written in exactly one place (the owl Ontology branch,
guarded by the base being unset).  The following lemmas show every helper
operation leaves it untouched; the recursive helpers preserve it whenever
the replay callback does. -/

theorem db_addToUnknownBuffer (b : SerializationDataBuffer) (iri : Term)
    (t : Triple) : (addToUnknownBuffer b iri t).document_base = b.document_base := by
  unfold addToUnknownBuffer
  cases lookupBy termBeq b.unknown_buffer iri <;> rfl

theorem db_insertEdgeInclude (b : SerializationDataBuffer) (iri : Term)
    (e : Edge) : (insertEdgeInclude b iri e).document_base = b.document_base := rfl

theorem db_insertEdge (ser : GraphDisplayDataSolutionSerializer)
    (b : SerializationDataBuffer) (t : Triple) (et : ElementType)
    (lab : Option String) :
    (insertEdge ser b t et lab).1.document_base = b.document_base := by
  unfold insertEdge
  rcases hso : resolveSo b t with ⟨s, o⟩
  rcases s with _ | s <;> rcases o with _ | o <;> simp only [hso]
  · simp [db_addToUnknownBuffer]
  · simp [db_addToUnknownBuffer]
  · cases ht : t.target <;> simp [ht, db_addToUnknownBuffer]
  · rfl

theorem db_upgradeNodeType (b : SerializationDataBuffer) (iri : Term)
    (ne2 : ElementType) : (upgradeNodeType b iri ne2).document_base = b.document_base := by
  unfold upgradeNodeType
  cases lookupBy termBeq b.node_element_buffer iri with
  | none => rfl
  | some old => by_cases h : old = ElementType.Owl (.Node .Class) <;> simp [h]

theorem db_extendElementLabel (b : SerializationDataBuffer) (el : Term)
    (lab : String) : (extendElementLabel b el lab).document_base = b.document_base := by
  unfold extendElementLabel
  cases lookupBy termBeq b.label_buffer el <;> rfl

theorem db_insertCharacteristic (b : SerializationDataBuffer) (t : Triple)
    (arg : String) : (insertCharacteristic b t arg).document_base = b.document_base := by
  unfold insertCharacteristic
  split
  · split
    · rfl
    · rfl
  · rw [db_addToUnknownBuffer]

theorem db_updateEdges (b : SerializationDataBuffer) (old new : Term) :
    (updateEdges b old new).document_base = b.document_base := by
  rcases hr : removeBy termBeq b.edges_include_map old with ⟨oe, m⟩
  cases oe with
  | none =>
    have hred : updateEdges b old new = { b with edges_include_map := m } := by
      unfold updateEdges
      rw [hr]
    rw [hred]
  | some edges =>
    have hred : updateEdges b old new
        = edges.foldl (fun b e =>
            let b := { b with edge_buffer := setRemoveBy edgeEq b.edge_buffer e }
            let e := retargetEdge old new e
            let b := { b with edge_buffer := setInsertBy edgeEq b.edge_buffer e }
            insertEdgeInclude b new e) { b with edges_include_map := m } := by
      unfold updateEdges
      rw [hr]
    rw [hred]
    exact foldl_invariant
      (fun x : SerializationDataBuffer => x.document_base = b.document_base) _
      (fun x e hx => by simpa [insertEdgeInclude] using hx) edges _ rfl

theorem db_checkUnknownBufferWith
    (cb : SerializationDataBuffer → Triple → SerializationDataBuffer) (base : String)
    (hcb : ∀ b t, b.document_base = some base → (cb b t).document_base = some base)
    (b : SerializationDataBuffer) (term : Term)
    (hb : b.document_base = some base) :
    (checkUnknownBufferWith cb b term).document_base = some base := by
  rcases hr : removeBy termBeq b.unknown_buffer term with ⟨parked, m⟩
  cases parked with
  | none =>
    have hred : checkUnknownBufferWith cb b term = b := by
      unfold checkUnknownBufferWith
      rw [hr]
    rw [hred]; exact hb
  | some triples =>
    have hred : checkUnknownBufferWith cb b term
        = triples.foldl cb { b with unknown_buffer := m } := by
      unfold checkUnknownBufferWith
      rw [hr]
    rw [hred]
    exact foldl_invariant
      (fun x : SerializationDataBuffer => x.document_base = some base)
      cb hcb triples _ hb

theorem db_insertNodeWith
    (cb : SerializationDataBuffer → Triple → SerializationDataBuffer) (base : String)
    (hcb : ∀ b t, b.document_base = some base → (cb b t).document_base = some base)
    (b : SerializationDataBuffer) (t : Triple) (nt : ElementType)
    (hb : b.document_base = some base) :
    (insertNodeWith cb b t nt).document_base = some base := by
  unfold insertNodeWith
  by_cases h : containsBy termBeq b.edge_redirection t.id = true
  · rw [if_pos h]; exact hb
  · rw [if_neg h]
    exact db_checkUnknownBufferWith cb base hcb _ _ hb

theorem db_redirectIriWith
    (cb : SerializationDataBuffer → Triple → SerializationDataBuffer) (base : String)
    (hcb : ∀ b t, b.document_base = some base → (cb b t).document_base = some base)
    (b : SerializationDataBuffer) (old new : Term)
    (hb : b.document_base = some base) :
    (redirectIriWith cb b old new).document_base = some base := by
  unfold redirectIriWith
  exact db_checkUnknownBufferWith cb base hcb _ _ hb

theorem db_mergeNodesWith
    (cb : SerializationDataBuffer → Triple → SerializationDataBuffer) (base : String)
    (hcb : ∀ b t, b.document_base = some base → (cb b t).document_base = some base)
    (b : SerializationDataBuffer) (old new : Term)
    (hb : b.document_base = some base) :
    (mergeNodesWith cb b old new).document_base = some base := by
  unfold mergeNodesWith
  apply db_redirectIriWith cb base hcb
  rw [db_updateEdges]
  exact hb

end VOWLR


namespace VOWLR

theorem db_propertyRowStep (b : SerializationDataBuffer) (t : Triple)
    (target : Term) : (propertyRowStep b t target).1.document_base = b.document_base := by
  unfold propertyRowStep
  split
  · rfl
  · split_ifs with h1 h2
    · rfl
    · rfl
    · rw [db_addToUnknownBuffer]
  · split_ifs with h1 h2
    · rfl
    · rfl
    · rw [db_addToUnknownBuffer]
  · split_ifs with h1 h2
    · rfl
    · rfl
    · rfl
  · rw [db_addToUnknownBuffer]
  · rw [db_addToUnknownBuffer]

theorem db_propertyFallbackWith (ser : GraphDisplayDataSolutionSerializer)
    (cb : SerializationDataBuffer → Triple → SerializationDataBuffer) (base : String)
    (hcb : ∀ b t, b.document_base = some base → (cb b t).document_base = some base)
    (b : SerializationDataBuffer) (t : Triple)
    (hb : b.document_base = some base) :
    (propertyFallbackWith ser cb b t).document_base = some base := by
  have hfold : ∀ (nts : List Triple) (x : SerializationDataBuffer),
      x.document_base = some base →
      (nts.foldl (fun b nt =>
        if nt.element_type = Term.namedNode owlThingIri then
          insertNodeWith cb b nt (ElementType.Owl (.Node .Thing))
        else if nt.element_type = Term.namedNode rdfsLiteralIri then
          insertNodeWith cb b nt (ElementType.Rdfs (.Node .Literal))
        else b) x).document_base = some base := by
    intro nts x hx
    refine foldl_invariant
      (fun y : SerializationDataBuffer => y.document_base = some base) _ ?_ nts x hx
    intro y nt hy
    by_cases h1 : nt.element_type = Term.namedNode owlThingIri
    · rw [if_pos h1]
      exact db_insertNodeWith cb base hcb _ _ _ hy
    · rw [if_neg h1]
      by_cases h2 : nt.element_type = Term.namedNode rdfsLiteralIri
      · rw [if_pos h2]
        exact db_insertNodeWith cb base hcb _ _ _ hy
      · rw [if_neg h2]
        exact hy
  have hfinal : ∀ (x : SerializationDataBuffer) (etrip : Option Triple),
      x.document_base = some base →
      (match etrip with
       | some edge_triple =>
         let r := insertEdge ser x edge_triple (ElementType.Owl (.Edge .ObjectProperty)) (lookupBy termBeq x.label_buffer edge_triple.element_type)
         match r.2 with
         | some edge =>
           let key := edge_triple.element_type.toDisplayString
           let b2 := { r.1 with property_edge_map := insertBy strBeq r.1.property_edge_map key edge }
           let b3 := { b2 with property_domain_map := insertBy strBeq b2.property_domain_map key (setInsertBy strBeq ((lookupBy strBeq b2.property_domain_map key).getD []) ((edge_triple.target.map Term.toDisplayString).getD "")) }
           { b3 with property_range_map := insertBy strBeq b3.property_range_map key (setInsertBy strBeq ((lookupBy strBeq b3.property_range_map key).getD []) edge_triple.id.toDisplayString) }
         | none => r.1
       | none => x).document_base = some base := by
    intro x etrip hx
    cases etrip with
    | none => exact hx
    | some et =>
      rcases hr : insertEdge ser x et (ElementType.Owl (.Edge .ObjectProperty))
          (lookupBy termBeq x.label_buffer et.element_type) with ⟨b2, eo⟩
      have hdb := db_insertEdge ser x et (ElementType.Owl (.Edge .ObjectProperty))
        (lookupBy termBeq x.label_buffer et.element_type)
      rw [hr] at hdb
      simp only [hr]
      cases eo with
      | none => exact hdb.trans hx
      | some edge => exact hdb.trans hx
  unfold propertyFallbackWith
  cases ht : t.target with
  | none => exact hb
  | some target =>
    rcases hstep : propertyRowStep b t target with ⟨b1, nodes, etrip⟩
    have hb1 : b1.document_base = some base := by
      have hdb := db_propertyRowStep b t target
      rw [hstep] at hdb
      exact hdb.trans hb
    simp only [hstep]
    cases nodes with
    | none => exact hfinal b1 etrip hb1
    | some nts => exact hfinal _ etrip (hfold nts b1 hb1)

end VOWLR

namespace VOWLR

theorem db_equivalentClassCaseWith
    (cb : SerializationDataBuffer → Triple → SerializationDataBuffer) (base : String)
    (hcb : ∀ b t, b.document_base = some base → (cb b t).document_base = some base)
    (b : SerializationDataBuffer) (t : Triple)
    (hb : b.document_base = some base) :
    (equivalentClassCaseWith cb b t).document_base = some base := by
  have hnamed : ∀ (x : SerializationDataBuffer) (tg : Term),
      x.document_base = some base →
      (match removeBy termBeq x.node_element_buffer tg with
       | (some _, nb) =>
         upgradeNodeType (mergeNodesWith cb { x with node_element_buffer := nb } tg t.id)
           t.id (ElementType.Owl (.Node .EquivalentClass))
       | (none, _) =>
         match removeBy termBeq x.unknown_buffer tg with
         | (some _, ub) =>
           upgradeNodeType { x with unknown_buffer := ub } t.id
             (ElementType.Owl (.Node .EquivalentClass))
         | (none, _) =>
           { x with failed_buffer := x.failed_buffer ++ [(some t, "Failed to merge object of equivalence relation into subject: object not found")] }).document_base
        = some base := by
    intro x tg hx
    rcases hrn : removeBy termBeq x.node_element_buffer tg with ⟨nopt, nb⟩
    cases nopt with
    | some e =>
      exact (db_upgradeNodeType _ _ _).trans (db_mergeNodesWith cb base hcb _ tg t.id hx)
    | none =>
      rcases hru : removeBy termBeq x.unknown_buffer tg with ⟨uopt, ub⟩
      cases uopt with
      | some u => exact (db_upgradeNodeType _ _ _).trans hx
      | none => exact hx
  unfold equivalentClassCaseWith
  split
  · rename_i target heq
    split_ifs with h1 h2
    · refine hnamed _ target ?_
      rcases hrl : removeBy termBeq b.label_buffer target with ⟨lopt, lb⟩
      cases lopt with
      | some label => exact (db_extendElementLabel _ _ _).trans hb
      | none => exact hb
    · rcases hso : resolveSo b t with ⟨so, oo⟩
      cases so with
      | some idxs =>
        cases oo with
        | some idxo => exact db_mergeNodesWith cb base hcb b idxo idxs hb
        | none => exact db_redirectIriWith cb base hcb b target idxs hb
      | none =>
        show (addToUnknownBuffer b target t).document_base = some base
        rw [db_addToUnknownBuffer]
        exact hb
    · exact hb
  · exact hb

end VOWLR

namespace VOWLR

set_option maxHeartbeats 1000000 in
theorem db_writeNodeTripleBody (ser : GraphDisplayDataSolutionSerializer)
    (cb : SerializationDataBuffer → Triple → SerializationDataBuffer) (base : String)
    (hcb : ∀ b t, b.document_base = some base → (cb b t).document_base = some base)
    (b : SerializationDataBuffer) (t : Triple)
    (hb : b.document_base = some base) :
    (writeNodeTripleBody ser cb b t).document_base = some base := by
  have hcomplement : ∀ (x : SerializationDataBuffer) (ne2 : ElementType),
      x.document_base = some base →
      (match resolve x t.id with
       | some index => upgradeNodeType x index ne2
       | none => x).document_base = some base := by
    intro x ne2 hx
    cases hres : resolve x t.id with
    | some index => exact (db_upgradeNodeType _ _ _).trans hx
    | none => exact hx
  have hupgradeEdge : ∀ (r : SerializationDataBuffer × Option Edge) (ne2 : ElementType),
      r.1.document_base = some base →
      (match r.2 with
       | some edge => upgradeNodeType r.1 edge.subject ne2
       | none => r.1).document_base = some base := by
    intro r ne2 hr
    cases hre : r.2 with
    | some edge =>
      simp only [hre]
      exact (db_upgradeNodeType _ _ _).trans hr
    | none =>
      simp only [hre]
      exact hr
  unfold writeNodeTripleBody
  split
  · exact hb
  · split_ifs with hv
    · exact db_insertNodeWith cb base hcb _ _ _ hb
    · exact hb
  · rename_i uri heq
    by_cases h1 : uri = rdfPropertyIri
    · rw [if_pos h1, db_insertEdge]; exact hb
    rw [if_neg h1]
    by_cases h2 : uri = rdfsClassIri
    · rw [if_pos h2]; exact db_insertNodeWith cb base hcb _ _ _ hb
    rw [if_neg h2]
    by_cases h3 : uri = rdfsDatatypeIri
    · rw [if_pos h3]; exact db_insertNodeWith cb base hcb _ _ _ hb
    rw [if_neg h3]
    by_cases h4 : uri = rdfsDomainIri
    · rw [if_pos h4]; exact hb
    rw [if_neg h4]
    by_cases h5 : uri = rdfsLiteralIri
    · rw [if_pos h5]; exact db_insertNodeWith cb base hcb _ _ _ hb
    rw [if_neg h5]
    by_cases h6 : uri = rdfsRangeIri
    · rw [if_pos h6]; exact hb
    rw [if_neg h6]
    by_cases h7 : uri = rdfsResourceIri
    · rw [if_pos h7]; exact db_insertNodeWith cb base hcb _ _ _ hb
    rw [if_neg h7]
    by_cases h8 : uri = rdfsSubClassOfIri
    · rw [if_pos h8, db_insertEdge]; exact hb
    rw [if_neg h8]
    by_cases h9 : uri = owlClassIri
    · rw [if_pos h9]; exact db_insertNodeWith cb base hcb _ _ _ hb
    rw [if_neg h9]
    by_cases h10 : uri = owlComplementOfIri
    · rw [if_pos h10]
      by_cases hs : t.target.isSome = true
      · rw [if_pos hs]
        exact hcomplement _ _ (by rw [db_insertEdge]; exact hb)
      · rw [if_neg hs, db_insertEdge]; exact hb
    rw [if_neg h10]
    by_cases h11 : uri = owlDatatypePropertyIri
    · rw [if_pos h11]; exact hb
    rw [if_neg h11]
    by_cases h12 : uri = owlDeprecatedClassIri
    · rw [if_pos h12]; exact db_insertNodeWith cb base hcb _ _ _ hb
    rw [if_neg h12]
    by_cases h13 : uri = owlDeprecatedPropertyIri
    · rw [if_pos h13, db_insertEdge]; exact hb
    rw [if_neg h13]
    by_cases h14 : uri = owlDisjointUnionOfIri
    · rw [if_pos h14]
      by_cases hs : t.target.isSome = true
      · rw [if_pos hs]
        exact hcomplement _ _ (by rw [db_insertEdge]; exact hb)
      · rw [if_neg hs, db_insertEdge]; exact hb
    rw [if_neg h14]
    by_cases h15 : uri = owlDisjointWithIri
    · rw [if_pos h15, db_insertEdge]; exact hb
    rw [if_neg h15]
    by_cases h16 : uri = owlEquivalentClassIri
    · rw [if_pos h16]; exact db_equivalentClassCaseWith cb base hcb b t hb
    rw [if_neg h16]
    by_cases h17 : uri = owlIntersectionOfIri
    · rw [if_pos h17]
      exact hupgradeEdge (insertEdge ser b t ElementType.NoDraw none) _
        (by rw [db_insertEdge]; exact hb)
    rw [if_neg h17]
    by_cases h18 : uri = owlInverseFunctionalPropertyIri
    · rw [if_pos h18, db_insertCharacteristic]; exact hb
    rw [if_neg h18]
    by_cases h19 : uri = owlObjectPropertyIri
    · rw [if_pos h19]; exact hb
    rw [if_neg h19]
    by_cases h20 : uri = owlOntologyIri
    · rw [if_pos h20, hb]; exact hb
    rw [if_neg h20]
    by_cases h21 : uri = owlThingIri
    · rw [if_pos h21]; exact db_insertNodeWith cb base hcb _ _ _ hb
    rw [if_neg h21]
    by_cases h22 : uri = owlUnionOfIri
    · rw [if_pos h22]
      exact hupgradeEdge (insertEdge ser b t ElementType.NoDraw none) _
        (by rw [db_insertEdge]; exact hb)
    rw [if_neg h22]
    exact db_propertyFallbackWith ser cb base hcb b t hb

theorem db_writeNodeTriple (ser : GraphDisplayDataSolutionSerializer) (base : String) :
    ∀ (fuel : Nat) (b : SerializationDataBuffer) (t : Triple),
      b.document_base = some base →
      (writeNodeTriple ser fuel b t).document_base = some base := by
  intro fuel
  induction fuel with
  | zero => intro b t hb; exact hb
  | succ n ih =>
    intro b t hb
    exact db_writeNodeTripleBody ser (writeNodeTriple ser n) base ih b t hb

end VOWLR

namespace VOWLR

/-- Claim C7: the first owl Ontology row sets the document base from the
subject's rendered IRI with the angle brackets stripped; and once the
document base is set, processing any further row whatsoever — in particular
a second owl Ontology row with a different subject — leaves it unchanged. -/
theorem claim_C7 (ser : GraphDisplayDataSolutionSerializer) (fuel : Nat)
    (b : SerializationDataBuffer) (t : Triple) :
    (b.document_base = none → t.element_type = Term.namedNode owlOntologyIri →
      (writeNodeTriple ser (fuel+1) b t).document_base
        = some (trimTagCircumfix t.id.toDisplayString))
    ∧ (∀ base, b.document_base = some base →
      (writeNodeTriple ser fuel b t).document_base = some base) := by
  constructor
  · intro hnone hty
    obtain ⟨tid, tet, ttgt⟩ := t
    have hty2 : tet = Term.namedNode owlOntologyIri := hty
    subst hty2
    have hred : writeNodeTriple ser (fuel+1) b ⟨tid, Term.namedNode owlOntologyIri, ttgt⟩
        = (match b.document_base with
           | some _ => b
           | none => { b with document_base := some (trimTagCircumfix (Term.toDisplayString tid)) }) := rfl
    rw [hred, hnone]
  · intro base hb
    exact db_writeNodeTriple ser base fuel b t hb

/-- Witness for claim C7: the first ontology row on a fresh buffer sets the
base to the bracket-stripped subject IRI, and a second ontology row with a
different subject leaves an already-set base unchanged. -/
theorem claim_C7_witness :
    (writeNodeTriple defaultSerializer 1 SerializationDataBuffer.new
      c7OntologyRow).document_base
        = some (trimTagCircumfix c7OntologyRow.id.toDisplayString)
    ∧ (writeNodeTriple defaultSerializer 5 c7BaseSetBuffer
      c7SecondOntologyRow).document_base = some "http://example.com#" := by
  constructor
  · exact (claim_C7 defaultSerializer 0 SerializationDataBuffer.new c7OntologyRow).1
      rfl rfl
  · exact (claim_C7 defaultSerializer 5 c7BaseSetBuffer c7SecondOntologyRow).2
      "http://example.com#" rfl

end VOWLR
